import Mathlib

/-!
Verification development for the RPF7 archive browser (rpf.ts, rpf-manager.ts,
crypto.ts).  The TypeScript sources are shallowly embedded: buffers are
`List Nat` of byte values, `DataView.getUint32/getUint64` little-endian reads
become arithmetic over `List.getD`, `fs.readSync` into a zero-initialised
`Buffer.alloc` becomes `readSyncFill` (bytes past end-of-file stay 0), and
code that throws returns `Except RpfError`.
-/

set_option linter.unusedVariables false

/-- Little-endian `DataView.getUint32(off)` over a byte buffer.
Out-of-range bytes read as 0 (buffers are constructed with exact length). -/
def getUint32 (data : List Nat) (off : Nat) : Nat :=
  data.getD off 0 + data.getD (off+1) 0 * 256 + data.getD (off+2) 0 * 65536 +
    data.getD (off+3) 0 * 16777216

/-- Little-endian `DataView.getBigUint64(off)`. -/
def getUint64 (data : List Nat) (off : Nat) : Nat :=
  getUint32 data off + getUint32 data (off+4) * 4294967296

/-- `Buffer.alloc(len)` followed by `fs.readSync(fd, buf, 0, len, pos)`:
bytes available in the file are copied, anything past end-of-file is left
as the zero fill.  `readSync` reports a short read count but the source
never checks it. -/
def readSyncFill (file : List Nat) (pos len : Nat) : List Nat :=
  (List.range len).map (fun i => file.getD (pos + i) 0)

/-- ASCII lowercasing of one byte; models `String.prototype.toLowerCase`
on the ASCII names the archives use. -/
def toLowerByte (b : Nat) : Nat := if 65 ≤ b ∧ b ≤ 90 then b + 32 else b

/-- `RpfFile.readName`: scan the names buffer from `offset` up to the first
NUL byte (or the end of the buffer) and return those bytes. -/
def readName (namesData : List Nat) (offset : Nat) : List Nat :=
  (namesData.drop offset).takeWhile (fun b => b ≠ 0)

/-- Errors thrown while opening an archive.
`hierarchyOutOfRange` models the `TypeError` raised by
`buildHierarchy` when `this.allEntries[i]` is `undefined`;
`pathWalkDiverges` models the stack overflow of the unbounded
`updatePaths`/`findRpfFiles` recursion on a cyclic directory graph;
`nestingExhausted` models call-stack exhaustion of unboundedly deep
nested-archive recursion. -/
inductive RpfError where
  | invalidVersion (v : Nat)
  | invalidDirectoryEntry (ident : Nat)
  | invalidBinaryEntry
  | hierarchyOutOfRange
  | pathWalkDiverges
  | nestingExhausted
  | entryNotFile
  | inflateFailed
deriving DecidableEq

/-- `RpfDirectoryEntry` fields set by its `read`. -/
structure RpfDirectoryEntry where
  nameOffset : Nat
  entriesIndex : Nat
  entriesCount : Nat
deriving DecidableEq

/-- `RpfBinaryFileEntry` fields set by its `read`. -/
structure RpfBinaryFileEntry where
  nameOffset : Nat
  fileSize : Nat
  fileOffset : Nat
  fileUncompressedSize : Nat
  encryptionType : Nat
deriving DecidableEq

/-- `RpfResourceFileEntry` fields set by its `read`. -/
structure RpfResourceFileEntry where
  nameOffset : Nat
  fileSize : Nat
  fileOffset : Nat
  fileUncompressedSize : Nat
  systemFlags : Nat
  graphicsFlags : Nat
deriving DecidableEq

/-- The three runtime entry classes, as a closed sum. -/
inductive RpfEntryKind where
  | dir (d : RpfDirectoryEntry)
  | bin (b : RpfBinaryFileEntry)
  | res (r : RpfResourceFileEntry)
deriving DecidableEq

/-- `RpfDirectoryEntry.read`: word 0 is the name offset, word 1 the entries
index, word 2 the entries count, and word 3 must be the sentinel
`0x7FFFFF00` or the constructor throws. -/
def RpfDirectoryEntry.read (data : List Nat) (offset : Nat) :
    Except RpfError RpfDirectoryEntry :=
  let nameOffset := getUint32 data offset
  let h1 := getUint32 data (offset+4)
  let h2 := getUint32 data (offset+8)
  let h3 := getUint32 data (offset+12)
  if h3 ≠ 0x7FFFFF00 then .error (.invalidDirectoryEntry h3)
  else .ok ⟨nameOffset, h1, h2⟩

/-- `RpfBinaryFileEntry.read`: bit-packed fields of the two little-endian
64-bit words; throws when the high 32 bits of `d2` are nonzero. -/
def RpfBinaryFileEntry.read (data : List Nat) (offset : Nat) :
    Except RpfError RpfBinaryFileEntry :=
  let d1 := getUint64 data offset
  let d2 := getUint64 data (offset+8)
  if d2 >>> 32 ≠ 0 then .error .invalidBinaryEntry
  else .ok ⟨d1 &&& 0xFFFF, (d1 >>> 16) &&& 0xFFFFFF, (d1 >>> 40) &&& 0xFFFFFF,
            d2 &&& 0xFFFFFF, (d2 >>> 24) &&& 0xFF⟩

/-- `RpfResourceFileEntry.getResourceSize`. -/
def RpfResourceFileEntry.getResourceSize (systemFlags graphicsFlags : Nat) : Nat :=
  let baseSize := if (systemFlags >>> 27) &&& 0x1 ≠ 0 then 0x10 else 0x0
  let virtualSize := (systemFlags &&& 0x7FF) <<< ((systemFlags >>> 11) &&& 0xF)
  let physicalSize := ((systemFlags >>> 15) &&& 0x7F) <<< ((systemFlags >>> 25) &&& 0xF)
  let virtualSizeGraphics := (graphicsFlags &&& 0x7FF) <<< ((graphicsFlags >>> 11) &&& 0xF)
  let physicalSizeGraphics := ((graphicsFlags >>> 15) &&& 0x7F) <<< ((graphicsFlags >>> 25) &&& 0xF)
  baseSize + virtualSize + physicalSize + virtualSizeGraphics + physicalSizeGraphics

/-- `RpfResourceFileEntry.read`: `fileUncompressedSize` keeps its class
default 0 unless the 0xFFFFFF branch rewrites both sizes. -/
def RpfResourceFileEntry.read (data : List Nat) (offset : Nat) :
    RpfResourceFileEntry :=
  let d1 := getUint64 data offset
  let d2 := getUint64 data (offset+8)
  let nameOffset := d1 &&& 0xFFFF
  let fileSize := (d1 >>> 16) &&& 0xFFFFFF
  let fileOffset := (d1 >>> 40) &&& 0xFFFFFF
  let systemFlags := d2 &&& 0xFFFFFFFF
  let graphicsFlags := (d2 >>> 32) &&& 0xFFFFFFFF
  if fileSize = 0xFFFFFF then
    let sz := RpfResourceFileEntry.getResourceSize systemFlags graphicsFlags
    ⟨nameOffset, sz, fileOffset, sz, systemFlags, graphicsFlags⟩
  else
    ⟨nameOffset, fileSize, fileOffset, 0, systemFlags, graphicsFlags⟩

/-- The `parseEntries` per-record dispatch: directory when the 32-bit word at
`offset + 8` equals `0x7FFFFF00`, binary file when its high bit is clear,
resource file otherwise. -/
def readEntryRecord (data : List Nat) (offset : Nat) : Except RpfError RpfEntryKind :=
  let h2 := getUint32 data (offset+8)
  if h2 = 0x7FFFFF00 then
    (RpfDirectoryEntry.read data offset).map .dir
  else if h2 &&& 0x80000000 = 0 then
    (RpfBinaryFileEntry.read data offset).map .bin
  else
    .ok (.res (RpfResourceFileEntry.read data offset))

/-- The name offset the record carries, used to resolve its name. -/
def RpfEntryKind.nameOffset : RpfEntryKind → Nat
  | .dir d => d.nameOffset
  | .bin b => b.nameOffset
  | .res r => r.nameOffset

/-- An entry as stored in `allEntries`: the typed record plus the resolved
name and its lowercase form. -/
structure ParsedEntry where
  kind : RpfEntryKind
  name : List Nat
  nameLower : List Nat
deriving DecidableEq

/-- One iteration of the `parseEntries` loop for index `i`. -/
def parseEntry (entriesData namesData : List Nat) (i : Nat) :
    Except RpfError ParsedEntry :=
  (readEntryRecord entriesData (i*16)).map fun k =>
    let nm := readName namesData k.nameOffset
    ⟨k, nm, nm.map toLowerByte⟩

/-- The `parseEntries` loop from index `i`, `c` iterations remaining;
the first thrown error aborts the loop. -/
def parseEntriesAux (entriesData namesData : List Nat) :
    Nat → Nat → Except RpfError (List ParsedEntry)
  | _, 0 => .ok []
  | i, c+1 =>
    match parseEntry entriesData namesData i with
    | .error e => .error e
    | .ok e =>
      match parseEntriesAux entriesData namesData (i+1) c with
      | .error err => .error err
      | .ok rest => .ok (e :: rest)

/-- `RpfFile.parseEntries` (loop part): decode `entryCount` records. -/
def parseEntries (entriesData namesData : List Nat) (entryCount : Nat) :
    Except RpfError (List ParsedEntry) :=
  parseEntriesAux entriesData namesData 0 entryCount

/-! ### AES-128 primitive (model of Node `crypto` `aes-128-ecb` with `setAutoPadding(false)`) -/

/-- The compiled-in key `PC_AES_KEY` from crypto.ts. -/
def PC_AES_KEY : List Nat :=
  [0x1A, 0x94, 0x6D, 0xBC, 0x73, 0xB8, 0x5E, 0x42,
   0x0B, 0x79, 0x45, 0x8C, 0x65, 0x00, 0x56, 0x7E]

/-- The AES S-box (FIPS-197 figure 7). -/
def sbox : List Nat :=
  [0x63, 0x7c, 0x77, 0x7b, 0xf2, 0x6b, 0x6f, 0xc5, 0x30, 0x01, 0x67, 0x2b, 0xfe, 0xd7, 0xab, 0x76,
   0xca, 0x82, 0xc9, 0x7d, 0xfa, 0x59, 0x47, 0xf0, 0xad, 0xd4, 0xa2, 0xaf, 0x9c, 0xa4, 0x72, 0xc0,
   0xb7, 0xfd, 0x93, 0x26, 0x36, 0x3f, 0xf7, 0xcc, 0x34, 0xa5, 0xe5, 0xf1, 0x71, 0xd8, 0x31, 0x15,
   0x04, 0xc7, 0x23, 0xc3, 0x18, 0x96, 0x05, 0x9a, 0x07, 0x12, 0x80, 0xe2, 0xeb, 0x27, 0xb2, 0x75,
   0x09, 0x83, 0x2c, 0x1a, 0x1b, 0x6e, 0x5a, 0xa0, 0x52, 0x3b, 0xd6, 0xb3, 0x29, 0xe3, 0x2f, 0x84,
   0x53, 0xd1, 0x00, 0xed, 0x20, 0xfc, 0xb1, 0x5b, 0x6a, 0xcb, 0xbe, 0x39, 0x4a, 0x4c, 0x58, 0xcf,
   0xd0, 0xef, 0xaa, 0xfb, 0x43, 0x4d, 0x33, 0x85, 0x45, 0xf9, 0x02, 0x7f, 0x50, 0x3c, 0x9f, 0xa8,
   0x51, 0xa3, 0x40, 0x8f, 0x92, 0x9d, 0x38, 0xf5, 0xbc, 0xb6, 0xda, 0x21, 0x10, 0xff, 0xf3, 0xd2,
   0xcd, 0x0c, 0x13, 0xec, 0x5f, 0x97, 0x44, 0x17, 0xc4, 0xa7, 0x7e, 0x3d, 0x64, 0x5d, 0x19, 0x73,
   0x60, 0x81, 0x4f, 0xdc, 0x22, 0x2a, 0x90, 0x88, 0x46, 0xee, 0xb8, 0x14, 0xde, 0x5e, 0x0b, 0xdb,
   0xe0, 0x32, 0x3a, 0x0a, 0x49, 0x06, 0x24, 0x5c, 0xc2, 0xd3, 0xac, 0x62, 0x91, 0x95, 0xe4, 0x79,
   0xe7, 0xc8, 0x37, 0x6d, 0x8d, 0xd5, 0x4e, 0xa9, 0x6c, 0x56, 0xf4, 0xea, 0x65, 0x7a, 0xae, 0x08,
   0xba, 0x78, 0x25, 0x2e, 0x1c, 0xa6, 0xb4, 0xc6, 0xe8, 0xdd, 0x74, 0x1f, 0x4b, 0xbd, 0x8b, 0x8a,
   0x70, 0x3e, 0xb5, 0x66, 0x48, 0x03, 0xf6, 0x0e, 0x61, 0x35, 0x57, 0xb9, 0x86, 0xc1, 0x1d, 0x9e,
   0xe1, 0xf8, 0x98, 0x11, 0x69, 0xd9, 0x8e, 0x94, 0x9b, 0x1e, 0x87, 0xe9, 0xce, 0x55, 0x28, 0xdf,
   0x8c, 0xa1, 0x89, 0x0d, 0xbf, 0xe6, 0x42, 0x68, 0x41, 0x99, 0x2d, 0x0f, 0xb0, 0x54, 0xbb, 0x16]

/-- The AES inverse S-box (FIPS-197 figure 14). -/
def invSbox : List Nat :=
  [0x52, 0x09, 0x6a, 0xd5, 0x30, 0x36, 0xa5, 0x38, 0xbf, 0x40, 0xa3, 0x9e, 0x81, 0xf3, 0xd7, 0xfb,
   0x7c, 0xe3, 0x39, 0x82, 0x9b, 0x2f, 0xff, 0x87, 0x34, 0x8e, 0x43, 0x44, 0xc4, 0xde, 0xe9, 0xcb,
   0x54, 0x7b, 0x94, 0x32, 0xa6, 0xc2, 0x23, 0x3d, 0xee, 0x4c, 0x95, 0x0b, 0x42, 0xfa, 0xc3, 0x4e,
   0x08, 0x2e, 0xa1, 0x66, 0x28, 0xd9, 0x24, 0xb2, 0x76, 0x5b, 0xa2, 0x49, 0x6d, 0x8b, 0xd1, 0x25,
   0x72, 0xf8, 0xf6, 0x64, 0x86, 0x68, 0x98, 0x16, 0xd4, 0xa4, 0x5c, 0xcc, 0x5d, 0x65, 0xb6, 0x92,
   0x6c, 0x70, 0x48, 0x50, 0xfd, 0xed, 0xb9, 0xda, 0x5e, 0x15, 0x46, 0x57, 0xa7, 0x8d, 0x9d, 0x84,
   0x90, 0xd8, 0xab, 0x00, 0x8c, 0xbc, 0xd3, 0x0a, 0xf7, 0xe4, 0x58, 0x05, 0xb8, 0xb3, 0x45, 0x06,
   0xd0, 0x2c, 0x1e, 0x8f, 0xca, 0x3f, 0x0f, 0x02, 0xc1, 0xaf, 0xbd, 0x03, 0x01, 0x13, 0x8a, 0x6b,
   0x3a, 0x91, 0x11, 0x41, 0x4f, 0x67, 0xdc, 0xea, 0x97, 0xf2, 0xcf, 0xce, 0xf0, 0xb4, 0xe6, 0x73,
   0x96, 0xac, 0x74, 0x22, 0xe7, 0xad, 0x35, 0x85, 0xe2, 0xf9, 0x37, 0xe8, 0x1c, 0x75, 0xdf, 0x6e,
   0x47, 0xf1, 0x1a, 0x71, 0x1d, 0x29, 0xc5, 0x89, 0x6f, 0xb7, 0x62, 0x0e, 0xaa, 0x18, 0xbe, 0x1b,
   0xfc, 0x56, 0x3e, 0x4b, 0xc6, 0xd2, 0x79, 0x20, 0x9a, 0xdb, 0xc0, 0xfe, 0x78, 0xcd, 0x5a, 0xf4,
   0x1f, 0xdd, 0xa8, 0x33, 0x88, 0x07, 0xc7, 0x31, 0xb1, 0x12, 0x10, 0x59, 0x27, 0x80, 0xec, 0x5f,
   0x60, 0x51, 0x7f, 0xa9, 0x19, 0xb5, 0x4a, 0x0d, 0x2d, 0xe5, 0x7a, 0x9f, 0x93, 0xc9, 0x9c, 0xef,
   0xa0, 0xe0, 0x3b, 0x4d, 0xae, 0x2a, 0xf5, 0xb0, 0xc8, 0xeb, 0xbb, 0x3c, 0x83, 0x53, 0x99, 0x61,
   0x17, 0x2b, 0x04, 0x7e, 0xba, 0x77, 0xd6, 0x26, 0xe1, 0x69, 0x14, 0x63, 0x55, 0x21, 0x0c, 0x7d]

/-- S-box lookup of one byte. -/
def sub1 (x : Nat) : Nat := sbox.getD x 0

/-- Inverse S-box lookup of one byte. -/
def isub1 (x : Nat) : Nat := invSbox.getD x 0

/-- Multiplication by x in GF(2^8) modulo the AES polynomial 0x11B. -/
def xtime (x : Nat) : Nat :=
  if x &&& 0x80 = 0 then (x <<< 1) &&& 0xFF else ((x <<< 1) ^^^ 0x1B) &&& 0xFF

/-- GF(2^8) multiplication by the constants AES MixColumns uses. -/
def gm2 (x : Nat) : Nat := xtime x

def gm3 (x : Nat) : Nat := xtime x ^^^ x

def gm4 (x : Nat) : Nat := xtime (xtime x)

def gm8 (x : Nat) : Nat := xtime (xtime (xtime x))

def gm9 (x : Nat) : Nat := gm8 x ^^^ x

def gm11 (x : Nat) : Nat := gm8 x ^^^ gm2 x ^^^ x

def gm13 (x : Nat) : Nat := gm8 x ^^^ gm4 x ^^^ x

def gm14 (x : Nat) : Nat := gm8 x ^^^ gm4 x ^^^ gm2 x

/-- An AES state: the 16 bytes of one block, in block byte order
(byte `r + 4c` is state row `r`, column `c`). -/
structure B16 where
  a0 : Nat
  a1 : Nat
  a2 : Nat
  a3 : Nat
  a4 : Nat
  a5 : Nat
  a6 : Nat
  a7 : Nat
  a8 : Nat
  a9 : Nat
  a10 : Nat
  a11 : Nat
  a12 : Nat
  a13 : Nat
  a14 : Nat
  a15 : Nat
deriving DecidableEq

/-- All 16 bytes of a state are below 256. -/
def B16ok (s : B16) : Prop :=
  s.a0 < 256 ∧ s.a1 < 256 ∧ s.a2 < 256 ∧ s.a3 < 256 ∧
  s.a4 < 256 ∧ s.a5 < 256 ∧ s.a6 < 256 ∧ s.a7 < 256 ∧
  s.a8 < 256 ∧ s.a9 < 256 ∧ s.a10 < 256 ∧ s.a11 < 256 ∧
  s.a12 < 256 ∧ s.a13 < 256 ∧ s.a14 < 256 ∧ s.a15 < 256

instance (s : B16) : Decidable (B16ok s) := by unfold B16ok; infer_instance

def subBytes (s : B16) : B16 :=
  ⟨sub1 s.a0, sub1 s.a1, sub1 s.a2, sub1 s.a3, sub1 s.a4, sub1 s.a5, sub1 s.a6, sub1 s.a7,
   sub1 s.a8, sub1 s.a9, sub1 s.a10, sub1 s.a11, sub1 s.a12, sub1 s.a13, sub1 s.a14, sub1 s.a15⟩

def invSubBytes (s : B16) : B16 :=
  ⟨isub1 s.a0, isub1 s.a1, isub1 s.a2, isub1 s.a3, isub1 s.a4, isub1 s.a5, isub1 s.a6, isub1 s.a7,
   isub1 s.a8, isub1 s.a9, isub1 s.a10, isub1 s.a11, isub1 s.a12, isub1 s.a13, isub1 s.a14, isub1 s.a15⟩

/-- ShiftRows: row `r` of the state rotates left by `r`. -/
def shiftRows (s : B16) : B16 :=
  ⟨s.a0, s.a5, s.a10, s.a15, s.a4, s.a9, s.a14, s.a3,
   s.a8, s.a13, s.a2, s.a7, s.a12, s.a1, s.a6, s.a11⟩

def invShiftRows (s : B16) : B16 :=
  ⟨s.a0, s.a13, s.a10, s.a7, s.a4, s.a1, s.a14, s.a11,
   s.a8, s.a5, s.a2, s.a15, s.a12, s.a9, s.a6, s.a3⟩

/-- One MixColumns column. -/
def mixCol (a0 a1 a2 a3 : Nat) : Nat × Nat × Nat × Nat :=
  (gm2 a0 ^^^ gm3 a1 ^^^ a2 ^^^ a3,
   a0 ^^^ gm2 a1 ^^^ gm3 a2 ^^^ a3,
   a0 ^^^ a1 ^^^ gm2 a2 ^^^ gm3 a3,
   gm3 a0 ^^^ a1 ^^^ a2 ^^^ gm2 a3)

/-- One InvMixColumns column. -/
def invMixCol (a0 a1 a2 a3 : Nat) : Nat × Nat × Nat × Nat :=
  (gm14 a0 ^^^ gm11 a1 ^^^ gm13 a2 ^^^ gm9 a3,
   gm9 a0 ^^^ gm14 a1 ^^^ gm11 a2 ^^^ gm13 a3,
   gm13 a0 ^^^ gm9 a1 ^^^ gm14 a2 ^^^ gm11 a3,
   gm11 a0 ^^^ gm13 a1 ^^^ gm9 a2 ^^^ gm14 a3)

def mixColumns (s : B16) : B16 :=
  let c0 := mixCol s.a0 s.a1 s.a2 s.a3
  let c1 := mixCol s.a4 s.a5 s.a6 s.a7
  let c2 := mixCol s.a8 s.a9 s.a10 s.a11
  let c3 := mixCol s.a12 s.a13 s.a14 s.a15
  ⟨c0.1, c0.2.1, c0.2.2.1, c0.2.2.2, c1.1, c1.2.1, c1.2.2.1, c1.2.2.2,
   c2.1, c2.2.1, c2.2.2.1, c2.2.2.2, c3.1, c3.2.1, c3.2.2.1, c3.2.2.2⟩

def invMixColumns (s : B16) : B16 :=
  let c0 := invMixCol s.a0 s.a1 s.a2 s.a3
  let c1 := invMixCol s.a4 s.a5 s.a6 s.a7
  let c2 := invMixCol s.a8 s.a9 s.a10 s.a11
  let c3 := invMixCol s.a12 s.a13 s.a14 s.a15
  ⟨c0.1, c0.2.1, c0.2.2.1, c0.2.2.2, c1.1, c1.2.1, c1.2.2.1, c1.2.2.2,
   c2.1, c2.2.1, c2.2.2.1, c2.2.2.2, c3.1, c3.2.1, c3.2.2.1, c3.2.2.2⟩

def addRoundKey (k s : B16) : B16 :=
  ⟨s.a0 ^^^ k.a0, s.a1 ^^^ k.a1, s.a2 ^^^ k.a2, s.a3 ^^^ k.a3,
   s.a4 ^^^ k.a4, s.a5 ^^^ k.a5, s.a6 ^^^ k.a6, s.a7 ^^^ k.a7,
   s.a8 ^^^ k.a8, s.a9 ^^^ k.a9, s.a10 ^^^ k.a10, s.a11 ^^^ k.a11,
   s.a12 ^^^ k.a12, s.a13 ^^^ k.a13, s.a14 ^^^ k.a14, s.a15 ^^^ k.a15⟩

/-- AES-128 key schedule round constants. -/
def rcon : List Nat := [0x01, 0x02, 0x04, 0x08, 0x10, 0x20, 0x40, 0x80, 0x1B, 0x36]

/-- One key-schedule step: from round key `r-1` (16 bytes) to round key `r`. -/
def nextRoundKey (r : Nat) (k : List Nat) : List Nat :=
  let t0 := sub1 (k.getD 13 0) ^^^ rcon.getD r 0
  let t1 := sub1 (k.getD 14 0)
  let t2 := sub1 (k.getD 15 0)
  let t3 := sub1 (k.getD 12 0)
  let w0 := [k.getD 0 0 ^^^ t0, k.getD 1 0 ^^^ t1, k.getD 2 0 ^^^ t2, k.getD 3 0 ^^^ t3]
  let w1 := [w0.getD 0 0 ^^^ k.getD 4 0, w0.getD 1 0 ^^^ k.getD 5 0,
             w0.getD 2 0 ^^^ k.getD 6 0, w0.getD 3 0 ^^^ k.getD 7 0]
  let w2 := [w1.getD 0 0 ^^^ k.getD 8 0, w1.getD 1 0 ^^^ k.getD 9 0,
             w1.getD 2 0 ^^^ k.getD 10 0, w1.getD 3 0 ^^^ k.getD 11 0]
  let w3 := [w2.getD 0 0 ^^^ k.getD 12 0, w2.getD 1 0 ^^^ k.getD 13 0,
             w2.getD 2 0 ^^^ k.getD 14 0, w2.getD 3 0 ^^^ k.getD 15 0]
  w0 ++ w1 ++ w2 ++ w3

/-- Round key `r` (16 bytes) of the AES-128 key expansion of `PC_AES_KEY`. -/
def roundKeyBytes : Nat → List Nat
  | 0 => PC_AES_KEY
  | r+1 => nextRoundKey r (roundKeyBytes r)

/-- View 16 bytes as a state. -/
def b16OfList (l : List Nat) : B16 :=
  ⟨l.getD 0 0, l.getD 1 0, l.getD 2 0, l.getD 3 0, l.getD 4 0, l.getD 5 0,
   l.getD 6 0, l.getD 7 0, l.getD 8 0, l.getD 9 0, l.getD 10 0, l.getD 11 0,
   l.getD 12 0, l.getD 13 0, l.getD 14 0, l.getD 15 0⟩

/-- Flatten a state back to its 16 bytes. -/
def listOfB16 (s : B16) : List Nat :=
  [s.a0, s.a1, s.a2, s.a3, s.a4, s.a5, s.a6, s.a7,
   s.a8, s.a9, s.a10, s.a11, s.a12, s.a13, s.a14, s.a15]

def rk (r : Nat) : B16 := b16OfList (roundKeyBytes r)

/-- One AES encryption middle round with round key `k`. -/
def encRound (t : B16) (k : B16) : B16 :=
  addRoundKey k (mixColumns (shiftRows (subBytes t)))

/-- One inverse-cipher middle round with round key `k` (applied outermost
for the key used innermost by encryption). -/
def decRound (k : B16) (t : B16) : B16 :=
  invSubBytes (invShiftRows (invMixColumns (addRoundKey k t)))

/-- The nine middle round keys, in encryption order. -/
def midKeys : List B16 := [1, 2, 3, 4, 5, 6, 7, 8, 9].map rk

/-- AES-128 block encryption (FIPS-197 cipher) with the fixed key schedule. -/
def aesEncryptB (s : B16) : B16 :=
  addRoundKey (rk 10) (shiftRows (subBytes
    (midKeys.foldl encRound (addRoundKey (rk 0) s))))

/-- AES-128 block decryption (FIPS-197 inverse cipher). -/
def aesDecryptB (s : B16) : B16 :=
  addRoundKey (rk 0)
    (midKeys.foldr decRound (invSubBytes (invShiftRows (addRoundKey (rk 10) s))))

/-- The effect of the `decryptAES`/`encryptAES` block loop when its bound
equals the true block count `ceil(len/16)`: the cipher applied to each
full 16-byte block in input order, the trailing `len mod 16` bytes copied
unchanged.  The source walks offsets `0, 16, 32, …`; this equivalent
recursion takes 16 bytes at a time. -/
def processBlocks (f : List Nat → List Nat) (data : List Nat) : List Nat :=
  if h : 16 ≤ data.length then
    f (data.take 16) ++ processBlocks f (data.drop 16)
  else data
termination_by data.length
decreasing_by simp; omega

/-- JavaScript `ToInt32`: reduction modulo `2^32` into `[-2^31, 2^31)`.
Both operands of `>>` pass through it. -/
def jsToInt32 (n : Nat) : Int :=
  let m := n % 4294967296
  if m < 2147483648 then (m : Int) else (m : Int) - 4294967296

/-- The loop bound `data.length + 15 >> 4` of `decryptAES`/`encryptAES`:
`>>` is JavaScript's signed 32-bit arithmetic shift, a floor division by
16 after `ToInt32`.  For `data.length ≥ 2147483633` the sum reaches
`2^31` and the bound wraps negative. -/
def aesRounds (len : Nat) : Int := (jsToInt32 (len + 15)).fdiv 16

/-- How many iterations `for (let i = 0; i < rounds; i++)` makes: none
when `rounds` is negative. -/
def aesIters (len : Nat) : Nat := (aesRounds len).toNat

/-- `fuel` iterations of the AES block loop: each deciphers one full
16-byte block (or copies a shorter trailing block); if the iterations run
out before the input does, the unwritten output bytes keep the zeros
`Buffer.alloc` gave them. -/
def blockLoop (f : List Nat → List Nat) : Nat → List Nat → List Nat
  | 0, data => List.replicate data.length 0
  | fuel+1, data =>
    if 16 ≤ data.length then f (data.take 16) ++ blockLoop f fuel (data.drop 16)
    else data

namespace GTACrypto

/-- `GTACrypto.decryptAES`: `rounds = data.length + 15 >> 4` (32-bit
signed) iterations of the ECB block-decryption loop over a
zero-initialised output buffer of the input's length. -/
def decryptAES (data : List Nat) : List Nat :=
  blockLoop (fun b => listOfB16 (aesDecryptB (b16OfList b))) (aesIters data.length) data

/-- `GTACrypto.encryptAES`: the same loop with the forward cipher. -/
def encryptAES (data : List Nat) : List Nat :=
  blockLoop (fun b => listOfB16 (aesEncryptB (b16OfList b))) (aesIters data.length) data

end GTACrypto

/-! ### SHA-256 (model of Node `crypto.createHash` with algorithm sha256) -/

/-- 32-bit right rotation (value assumed below 2^32). -/
def rotr32 (n x : Nat) : Nat := ((x >>> n) ||| (x <<< (32 - n))) &&& 0xFFFFFFFF

def shaCh (x y z : Nat) : Nat := (x &&& y) ^^^ ((x ^^^ 0xFFFFFFFF) &&& z)

def shaMaj (x y z : Nat) : Nat := (x &&& y) ^^^ (x &&& z) ^^^ (y &&& z)

def bigSigma0 (x : Nat) : Nat := rotr32 2 x ^^^ rotr32 13 x ^^^ rotr32 22 x

def bigSigma1 (x : Nat) : Nat := rotr32 6 x ^^^ rotr32 11 x ^^^ rotr32 25 x

def smallSigma0 (x : Nat) : Nat := rotr32 7 x ^^^ rotr32 18 x ^^^ (x >>> 3)

def smallSigma1 (x : Nat) : Nat := rotr32 17 x ^^^ rotr32 19 x ^^^ (x >>> 10)

/-- SHA-256 round constants (FIPS-180-4). -/
def shaK : List Nat :=
  [1116352408, 1899447441, 3049323471, 3921009573, 961987163, 1508970993,
   2453635748, 2870763221, 3624381080, 310598401, 607225278, 1426881987,
   1925078388, 2162078206, 2614888103, 3248222580, 3835390401, 4022224774,
   264347078, 604807628, 770255983, 1249150122, 1555081692, 1996064986,
   2554220882, 2821834349, 2952996808, 3210313671, 3336571891, 3584528711,
   113926993, 338241895, 666307205, 773529912, 1294757372, 1396182291,
   1695183700, 1986661051, 2177026350, 2456956037, 2730485921, 2820302411,
   3259730800, 3345764771, 3516065817, 3600352804, 4094571909, 275423344,
   430227734, 506948616, 659060556, 883997877, 958139571, 1322822218,
   1537002063, 1747873779, 1955562222, 2024104815, 2227730452, 2361852424,
   2428436474, 2756734187, 3204031479, 3329325298]

/-- SHA-256 initial hash value. -/
def shaH0 : List Nat :=
  [1779033703, 3144134277, 1013904242, 2773480762,
   1359893119, 2600822924, 528734635, 1541459225]

/-- Big-endian 32-bit read used for the message schedule. -/
def getBE32 (data : List Nat) (off : Nat) : Nat :=
  data.getD off 0 * 16777216 + data.getD (off+1) 0 * 65536 +
    data.getD (off+2) 0 * 256 + data.getD (off+3) 0

/-- Big-endian bytes of a 32-bit word. -/
def be4 (w : Nat) : List Nat :=
  [(w >>> 24) &&& 0xFF, (w >>> 16) &&& 0xFF, (w >>> 8) &&& 0xFF, w &&& 0xFF]

/-- Big-endian bytes of the 64-bit message bit length. -/
def be8 (n : Nat) : List Nat :=
  [(n >>> 56) &&& 0xFF, (n >>> 48) &&& 0xFF, (n >>> 40) &&& 0xFF, (n >>> 32) &&& 0xFF,
   (n >>> 24) &&& 0xFF, (n >>> 16) &&& 0xFF, (n >>> 8) &&& 0xFF, n &&& 0xFF]

/-- SHA-256 padding: append 0x80, zeros to 56 mod 64, then the bit length. -/
def shaPad (msg : List Nat) : List Nat :=
  msg ++ 0x80 :: List.replicate ((119 - msg.length % 64) % 64) 0 ++ be8 (8 * msg.length)

/-- Message-schedule word `i` of one 64-byte chunk. -/
def shaW (chunk : List Nat) : Nat → Nat
  | i =>
    if h : i < 16 then getBE32 chunk (4*i)
    else (smallSigma1 (shaW chunk (i-2)) + shaW chunk (i-7) +
          smallSigma0 (shaW chunk (i-15)) + shaW chunk (i-16)) % 4294967296
termination_by i => i
decreasing_by all_goals omega

/-- One compression round; the state is the eight working variables. -/
def shaStep (chunk : List Nat) (st : List Nat) (i : Nat) : List Nat :=
  let a := st.getD 0 0
  let b := st.getD 1 0
  let c := st.getD 2 0
  let d := st.getD 3 0
  let e := st.getD 4 0
  let f := st.getD 5 0
  let g := st.getD 6 0
  let h := st.getD 7 0
  let t1 := (h + bigSigma1 e + shaCh e f g + shaK.getD i 0 + shaW chunk i) % 4294967296
  let t2 := (bigSigma0 a + shaMaj a b c) % 4294967296
  [(t1 + t2) % 4294967296, a, b, c, (d + t1) % 4294967296, e, f, g]

/-- Process one 64-byte chunk into the running hash. -/
def shaChunk (hsh chunk : List Nat) : List Nat :=
  let st := (List.range 64).foldl (shaStep chunk) hsh
  List.zipWith (fun x y => (x + y) % 4294967296) hsh st

/-- Split the padded message into 64-byte chunks. -/
def chunks64 (l : List Nat) : List (List Nat) :=
  if h : 0 < l.length then l.take 64 :: chunks64 (l.drop 64) else []
termination_by l.length
decreasing_by simp; omega

/-- SHA-256 digest (32 bytes) of a byte sequence. -/
def sha256 (msg : List Nat) : List Nat :=
  (((chunks64 (shaPad msg)).foldl shaChunk shaH0).map be4).flatten

/-- The four little-endian bytes of the 32-bit size tag
(`size & 0xFF`, `(size >> 8) & 0xFF`, …, with JS 32-bit coercion). -/
def sizeLE4 (size : Nat) : List Nat :=
  [(size % 4294967296) &&& 0xFF, ((size % 4294967296) >>> 8) &&& 0xFF,
   ((size % 4294967296) >>> 16) &&& 0xFF, ((size % 4294967296) >>> 24) &&& 0xFF]

namespace GTACrypto

/-- `GTACrypto.generateNGKey`: sha256 over the lowercased name followed by
the little-endian 32-bit size. -/
def generateNGKey (name : List Nat) (size : Nat) : List Nat :=
  sha256 (name.map toLowerByte ++ sizeLE4 size)

/-- `GTACrypto.decryptNG`: XOR each byte against the key, cycling the key
modulo its length; the store into the output `Buffer` truncates to a byte. -/
def decryptNG (data : List Nat) (name : List Nat) (size : Nat) : List Nat :=
  let key := generateNGKey name size
  (List.range data.length).map
    (fun i => (data.getD i 0 ^^^ key.getD (i % key.length) 0) % 256)

/-- `GTACrypto.encryptNG` just forwards to `decryptNG`. -/
def encryptNG (data : List Nat) (name : List Nat) (size : Nat) : List Nat :=
  decryptNG data name size

end GTACrypto

/-! ### zlib inflate (partial model of Node `zlib.inflateSync`)

`inflateSync` expects a zlib (RFC 1950) wrapped stream — not a raw deflate
stream.  The model validates the two-byte zlib header and the Adler-32
trailer exactly as zlib does, and decodes stored (BTYPE = 0) deflate
blocks exactly per RFC 1951.  Huffman-compressed blocks (BTYPE = 1, 2)
are outside the model and reported as `unmodelled`; no theorem below
depends on the model's behaviour for such streams. -/

inductive InflateResult where
  | ok (out : List Nat)
  | err
  | unmodelled
deriving DecidableEq

/-- Adler-32 checksum. -/
def adler32 (data : List Nat) : Nat :=
  let s := data.foldl (fun p b => ((p.1 + b) % 65521, (p.2 + (p.1 + b) % 65521) % 65521))
    ((1 : Nat), (0 : Nat))
  s.2 * 65536 + s.1

/-- Decode the deflate block sequence starting at byte `pos` (all blocks the
model accepts start on a byte boundary, as stored blocks realign the
stream).  Returns the decoded bytes and the position after the last block. -/
def inflateBlocks (data : List Nat) (fuel : Nat) (pos : Nat) (acc : List Nat) :
    InflateResult × Nat :=
  match fuel with
  | 0 => (.err, pos)
  | fuel+1 =>
    if data.length ≤ pos then (.err, pos)
    else
      let hdr := data.getD pos 0
      let bfinal := hdr &&& 1
      let btype := (hdr >>> 1) &&& 3
      if btype = 0 then
        let len := data.getD (pos+1) 0 + data.getD (pos+2) 0 * 256
        let nlen := data.getD (pos+3) 0 + data.getD (pos+4) 0 * 256
        if pos + 5 + len > data.length then (.err, pos)
        else if nlen ≠ 65535 - len then (.err, pos)
        else
          let out := acc ++ ((data.drop (pos+5)).take len)
          if bfinal = 1 then (.ok out, pos + 5 + len)
          else inflateBlocks data fuel (pos + 5 + len) out
      else (.unmodelled, pos)

/-- Partial model of `zlib.inflateSync`: zlib header check, stored-block
deflate decode, Adler-32 trailer check. -/
def inflateSync (data : List Nat) : InflateResult :=
  if data.length < 2 then .err
  else
    let cmf := data.getD 0 0
    let flg := data.getD 1 0
    if cmf &&& 0xF ≠ 8 then .err
    else if cmf >>> 4 > 7 then .err
    else if (cmf * 256 + flg) % 31 ≠ 0 then .err
    else if flg &&& 0x20 ≠ 0 then .err
    else
      match inflateBlocks data (data.length + 1) 2 [] with
      | (.ok out, after) =>
        if getBE32 data after = adler32 out then .ok out else .err
      | (r, _) => r

/-! ### Archive structure, hierarchy and open (rpf.ts `RpfFile`) -/

/-- `RpfEncryption` constants from crypto.ts. -/
def RpfEncryption.NONE : Nat := 0x0

def RpfEncryption.OPEN : Nat := 0x4E45504F

def RpfEncryption.AES : Nat := 0x0FFFFFF9

def RpfEncryption.NG : Nat := 0x0FEFFFFF

/-- A loaded `RpfFile`: header fields, the flat entry array, the root index
(`allEntries[0]` when it is a directory), and the nested child archives. -/
inductive RpfArchive where
  | mk (startPos : Nat) (fileName : List Nat) (version : Nat) (entryCount : Nat)
       (namesLength : Nat) (encryption : Nat) (entries : List ParsedEntry)
       (rootIdx : Option Nat) (children : List RpfArchive)

def RpfArchive.startPos : RpfArchive → Nat
  | .mk s _ _ _ _ _ _ _ _ => s

def RpfArchive.fileName : RpfArchive → List Nat
  | .mk _ n _ _ _ _ _ _ _ => n

def RpfArchive.version : RpfArchive → Nat
  | .mk _ _ v _ _ _ _ _ _ => v

def RpfArchive.entryCount : RpfArchive → Nat
  | .mk _ _ _ c _ _ _ _ _ => c

def RpfArchive.namesLength : RpfArchive → Nat
  | .mk _ _ _ _ l _ _ _ _ => l

def RpfArchive.encryption : RpfArchive → Nat
  | .mk _ _ _ _ _ e _ _ _ => e

def RpfArchive.entries : RpfArchive → List ParsedEntry
  | .mk _ _ _ _ _ _ es _ _ => es

def RpfArchive.rootIdx : RpfArchive → Option Nat
  | .mk _ _ _ _ _ _ _ r _ => r

def RpfArchive.children : RpfArchive → List RpfArchive
  | .mk _ _ _ _ _ _ _ _ cs => cs

/-- Is the entry at index `j` a directory? -/
def isDirAt (entries : List ParsedEntry) (j : Nat) : Bool :=
  match entries.get? j with
  | some e => match e.kind with | .dir _ => true | _ => false
  | none => false

/-- Is the entry at index `j` a file (binary or resource)? -/
def isFileAt (entries : List ParsedEntry) (j : Nat) : Bool :=
  match entries.get? j with
  | some e => match e.kind with | .bin _ => true | .res _ => true | _ => false
  | none => false

/-- The directory record at index `j`, when the entry is a directory. -/
def dirAt (entries : List ParsedEntry) (j : Nat) : Option RpfDirectoryEntry :=
  match entries.get? j with
  | some e => match e.kind with | .dir d => some d | _ => none
  | none => none

/-- The lowercased name of the entry at index `j`. -/
def nameLowerAt (entries : List ParsedEntry) (j : Nat) : List Nat :=
  match entries.get? j with
  | some e => e.nameLower
  | none => []

/-- The name of the entry at index `j`. -/
def nameAt (entries : List ParsedEntry) (j : Nat) : List Nat :=
  match entries.get? j with
  | some e => e.name
  | none => []

/-- Does directory index `d`'s child range `[entriesIndex, entriesIndex +
entriesCount)` contain index `j`?  False when `d` is not a directory. -/
def dirContains (entries : List ParsedEntry) (d j : Nat) : Bool :=
  match dirAt entries d with
  | some dr => decide (dr.entriesIndex ≤ j ∧ j < dr.entriesIndex + dr.entriesCount)
  | none => false

/-- `buildHierarchy` throws a `TypeError` as soon as it touches
`allEntries[i]` with `i` out of range; it completes iff every directory's
nonempty child range lies inside the entry array. -/
def hierarchyOK (entries : List ParsedEntry) : Bool :=
  entries.all fun e =>
    match e.kind with
    | .dir d => decide (d.entriesCount = 0 ∨ d.entriesIndex + d.entriesCount ≤ entries.length)
    | _ => true

/-- The parent pointer `buildHierarchy` leaves on entry `j`: directories are
processed in array order, each assignment overwriting the previous one, so
the last directory whose range contains `j` wins. -/
def parentIndex (entries : List ParsedEntry) (j : Nat) : Option Nat :=
  (List.range entries.length).foldl
    (fun acc i => if dirContains entries i j then some i else acc) none

/-- The indices `dir.directories` receives, in push order. -/
def subdirIndices (entries : List ParsedEntry) (d : RpfDirectoryEntry) : List Nat :=
  ((List.range d.entriesCount).map (fun k => d.entriesIndex + k)).filter
    (fun j => isDirAt entries j)

/-- The indices `dir.files` receives, in push order. -/
def fileIndices (entries : List ParsedEntry) (d : RpfDirectoryEntry) : List Nat :=
  ((List.range d.entriesCount).map (fun k => d.entriesIndex + k)).filter
    (fun j => isFileAt entries j)

/-- Number of directory entries. -/
def dirCount (entries : List ParsedEntry) : Nat :=
  (entries.filter fun e => match e.kind with | .dir _ => true | _ => false).length

/-- Does the recursive walk over `dir.directories` starting at index `d`
terminate within `fuel` levels?  `updatePaths` and `findRpfFiles` recurse
this way without any cycle guard; on a cyclic directory graph the JS call
stack overflows.  With `fuel = dirCount + 1` this is exact: an acyclic
walk never nests deeper than the number of directories. -/
def walkOK (entries : List ParsedEntry) : Nat → Nat → Bool
  | 0, _ => false
  | fuel+1, d =>
    match dirAt entries d with
    | some dr => (subdirIndices entries dr).all (walkOK entries fuel)
    | none => true

/-- Does `updatePaths` (and every later tree walk) terminate? -/
def updatePathsOK (entries : List ParsedEntry) (rootIdx : Option Nat) : Bool :=
  match rootIdx with
  | none => true
  | some r => walkOK entries (dirCount entries + 1) r

/-- `.rpf` suffix test on a lowercased name. -/
def endsWithDotRpf (nameLower : List Nat) : Bool :=
  [46, 114, 112, 102].isSuffixOf nameLower

/-- `RpfFile.findRpfFiles`: files of this directory whose lowercased name
ends in `.rpf`, then recursion into subdirectories, in order. -/
def findRpfIndices (entries : List ParsedEntry) : Nat → Nat → List Nat
  | 0, _ => []
  | fuel+1, d =>
    match dirAt entries d with
    | some dr =>
      (fileIndices entries dr).filter (fun j => endsWithDotRpf (nameLowerAt entries j)) ++
        (subdirIndices entries dr).flatMap (findRpfIndices entries fuel)
    | none => []

/-- `RpfFile.scanNestedRpfs`, parameterised by the recursive open:
walk the tree from the root, and for each found `.rpf` file entry that is a
`RpfBinaryFileEntry`, open a nested archive at `fileOffset * 512` (the
parent's own `startPos` is not added) in the same backing file; failures
are caught and the child skipped. -/
def scanNestedWith (openChild : Nat → List Nat → Except RpfError RpfArchive)
    (entries : List ParsedEntry) (rootIdx : Option Nat) : List RpfArchive :=
  match rootIdx with
  | none => []
  | some r =>
    (findRpfIndices entries (dirCount entries + 1) r).filterMap fun j =>
      match entries.get? j with
      | some e =>
        match e.kind with
        | .bin b => (openChild (b.fileOffset * 512) e.name).toOption
        | _ => none
      | none => none

/-- The body of `RpfFile.scanStructure`: read and validate the header at
`startPos`, read the entries and names tables (zero-filled past
end-of-file), decrypt them per the archive's encryption mode (NG is keyed
on the archive's file name and the backing file's total size), parse the
entries, build the hierarchy, and scan for nested archives; the recursive
nested-archive open is passed in as `openChild`. -/
def scanOpen (file : List Nat)
    (openChild : Nat → List Nat → Except RpfError RpfArchive)
    (startPos : Nat) (fileName : List Nat) : Except RpfError RpfArchive :=
    let header := readSyncFill file startPos 16
    let version := getUint32 header 0
    let entryCount := getUint32 header 4
    let namesLength := getUint32 header 8
    let encryption := getUint32 header 12
    if version ≠ 0x52504637 then .error (.invalidVersion version)
    else
      let entriesSize := entryCount * 16
      let entriesBuffer := readSyncFill file (startPos + 16) entriesSize
      let namesBuffer := readSyncFill file (startPos + 16 + entriesSize) namesLength
      let decryptedEntries :=
        if encryption = RpfEncryption.AES then GTACrypto.decryptAES entriesBuffer
        else if encryption = RpfEncryption.NG then
          GTACrypto.decryptNG entriesBuffer fileName file.length
        else entriesBuffer
      let decryptedNames :=
        if encryption = RpfEncryption.AES then GTACrypto.decryptAES namesBuffer
        else if encryption = RpfEncryption.NG then
          GTACrypto.decryptNG namesBuffer fileName file.length
        else namesBuffer
      match parseEntries decryptedEntries decryptedNames entryCount with
      | .error e => .error e
      | .ok entries =>
        if hierarchyOK entries then
          let rootIdx := if isDirAt entries 0 then some 0 else none
          if updatePathsOK entries rootIdx then
            let children := scanNestedWith openChild entries rootIdx
            .ok (.mk startPos fileName version entryCount namesLength encryption
                  entries rootIdx children)
          else .error .pathWalkDiverges
        else .error .hierarchyOutOfRange

/-- `RpfFile.scanStructure`: open the archive at `startPos`, recursively
opening nested archives; `fuel` bounds the nesting recursion depth,
modelling the finite JS call stack. -/
def scanStructure (file : List Nat) : Nat → Nat → List Nat → Except RpfError RpfArchive
  | 0, _, _ => .error .nestingExhausted
  | fuel+1, startPos, fileName =>
    scanOpen file (fun s n => scanStructure file fuel s n) startPos fileName

/-! ### Entry data pipeline (`RpfFileEntry.getFileData`) -/

/-- The `RpfFileEntry` fields `getFileData` reads.  For a binary entry
`isEncrypted = (encryptionType ≠ 0)`; a resource entry keeps the class
default `false` (its `read` never sets it). -/
structure FileEntryView where
  name : List Nat
  fileOffset : Nat
  fileSize : Nat
  fileUncompressedSize : Nat
  isEncrypted : Bool
deriving DecidableEq

def RpfBinaryFileEntry.view (name : List Nat) (b : RpfBinaryFileEntry) : FileEntryView :=
  ⟨name, b.fileOffset, b.fileSize, b.fileUncompressedSize, b.encryptionType ≠ 0⟩

def RpfResourceFileEntry.view (name : List Nat) (r : RpfResourceFileEntry) : FileEntryView :=
  ⟨name, r.fileOffset, r.fileSize, r.fileUncompressedSize, false⟩

/-- `RpfFileEntry.getFileData`: read `fileSize` bytes at
`startPos + fileOffset * 512` (zero-filled past end-of-file), decrypt if
the entry is flagged encrypted and the archive mode is AES or NG, then
inflate iff `fileUncompressedSize > 0` and it differs from `fileSize`.
The inflated length is returned as-is — it is never compared with
`fileUncompressedSize`. -/
def getFileData (file : List Nat) (startPos encryption : Nat) (e : FileEntryView) :
    Except RpfError (List Nat) :=
  let buffer := readSyncFill file (startPos + e.fileOffset * 512) e.fileSize
  let result :=
    if e.isEncrypted then
      if encryption = RpfEncryption.AES then GTACrypto.decryptAES buffer
      else if encryption = RpfEncryption.NG then
        GTACrypto.decryptNG buffer e.name e.fileUncompressedSize
      else buffer
    else buffer
  if e.fileUncompressedSize > 0 ∧ e.fileUncompressedSize ≠ e.fileSize then
    match inflateSync result with
    | .ok out => .ok out
    | _ => .error .inflateFailed
  else .ok result

/-! ### Registry (rpf-manager.ts `RpfManager.addNestedRpfs`) -/

/-- `RpfManager.addNestedRpfs`: register each child under
`basePath ++ "/" ++ child.fileName` (byte 47 is `/`), recursing into
children that themselves have children.  Returned as the ordered list of
`(key, archive)` insertions into the `rpfFiles` map. -/
def addNestedRpfs (base : List Nat) (arch : RpfArchive) : List (List Nat × RpfArchive) :=
  arch.children.attach.flatMap fun c =>
    let nested := base ++ [47] ++ c.1.fileName
    (nested, c.1) ::
      (if c.1.children.length > 0 then addNestedRpfs nested c.1 else [])
termination_by sizeOf arch
decreasing_by
  all_goals
    have h1 : sizeOf c.1 < sizeOf arch.children := List.sizeOf_lt_of_mem c.2
    cases arch
    simp [RpfArchive.children] at h1 ⊢
    omega

/-! ### Concrete archive images used by the end-to-end checks -/

/-- Scenario E1: header `{0x52504637, 2, 16, 0}`, a directory record
`{name 0, index 1, count 1, sentinel 0x7FFFFF00}`, a binary record for
`hi` (name offset 9, on-disk size 5, uncompressed 0, encryption 0,
payload block 1), names `"\0root\0hi\0"` padded to 16 bytes, and payload
`HELLO` at byte 512. -/
def e1File : List Nat :=
  [55,70,80,82, 2,0,0,0, 16,0,0,0, 0,0,0,0] ++
  [0,0,0,0, 1,0,0,0, 1,0,0,0, 0,255,255,127] ++
  [9,0,5,0,0,1,0,0, 0,0,0,0,0,0,0,0] ++
  ([0,114,111,111,116,0,104,105,0] ++ List.replicate 7 0) ++
  List.replicate 448 0 ++ [72,69,76,76,79]

/-- Scenario E2: E1 with the directory record's fourth word (the sentinel)
rewritten from `0x7FFFFF00` to `0x7FFFFF01`. -/
def e2File : List Nat :=
  [55,70,80,82, 2,0,0,0, 16,0,0,0, 0,0,0,0] ++
  [0,0,0,0, 1,0,0,0, 1,0,0,0, 1,255,255,127] ++
  [9,0,5,0,0,1,0,0, 0,0,0,0,0,0,0,0] ++
  ([0,114,111,111,116,0,104,105,0] ++ List.replicate 7 0) ++
  List.replicate 448 0 ++ [72,69,76,76,79]

/-- A backing file containing only a valid empty archive header. -/
def emptyFile : List Nat := [55,70,80,82, 0,0,0,0, 0,0,0,0, 0,0,0,0]

/-- The archive `scanStructure` produces from `emptyFile`. -/
def emptyArch : RpfArchive :=
  .mk 0 [] 0x52504637 0 0 0 [] none []

/-- A header claiming 2 entries and 4 names bytes over a 16-byte file:
every read of the entries and names tables runs past end-of-file. -/
def truncFile : List Nat := [55,70,80,82, 2,0,0,0, 4,0,0,0, 0,0,0,0]

/-- The archive `scanStructure` produces from `truncFile`: two all-zero
binary entries fabricated from the zero fill. -/
def truncArch : RpfArchive :=
  .mk 0 [] 0x52504637 2 4 0
    [⟨.bin ⟨0,0,0,0,0⟩, [], []⟩, ⟨.bin ⟨0,0,0,0,0⟩, [], []⟩] none []

/-- A valid zlib stream (one stored deflate block) whose decoded content is
the single byte `A`: header `78 01`, stored block `01 01 00 FE FF`,
data `41`, Adler-32 `00 42 00 42`. -/
def c4Payload : List Nat :=
  [0x78, 0x01, 0x01, 0x01, 0x00, 0xFE, 0xFF, 0x41, 0x00, 0x42, 0x00, 0x42]

/-- A file entry claiming uncompressed size 7 over the 12 bytes of
`c4Payload` (so the inflate branch is taken), unencrypted. -/
def c4Entry : FileEntryView := ⟨[], 0, 12, 7, false⟩

/-- A 16-byte resource record: name offset 3, on-disk size 5 (not the
0xFFFFFF marker), payload block 2, system flags `0x80000000` (the high
bit makes `parseEntries` classify the record as a resource), graphics
flags 0. -/
def c5Record : List Nat := [3,0,5,0,0,2,0,0, 0,0,0,128,0,0,0,0]

/-- The directory record of the C2 archive: name offset 0, entries index 2,
then the discriminator/count word `0x7FFFFF00` and the sentinel
`0x7FFFFF00`. -/
def overlapFile : List Nat :=
  [55,70,80,82, 2,255,255,127, 1,0,0,0, 0,0,0,0] ++
  [0,0,0,0, 2,0,0,0, 0,255,255,127, 0,255,255,127] ++
  [0,0,0,0, 2,0,0,0, 0,255,255,127, 0,255,255,127]

/-- The parsed form of the two directory records of `overlapFile`:
`entriesCount` is the discriminator word itself, `0x7FFFFF00`. -/
def overlapDir : ParsedEntry := ⟨.dir ⟨0, 2, 0x7FFFFF00⟩, [], []⟩

/-- An all-zero binary entry, as parsed from zero-filled record bytes. -/
def zeroBinEntry : ParsedEntry := ⟨.bin ⟨0,0,0,0,0⟩, [], []⟩

/-- The entry array `scanStructure` builds from `overlapFile`: its two
directory records followed by `0x7FFFFF00` zero-filled binary entries. -/
def overlapEntries : List ParsedEntry :=
  overlapDir :: overlapDir :: List.replicate 0x7FFFFF00 zeroBinEntry

/-- The archive `scanStructure` produces from `overlapFile`. -/
def overlapArch : RpfArchive :=
  .mk 0 [] 0x52504637 0x7FFFFF02 1 0 overlapEntries (some 0) []

/-- Backing file for the nested-scan check: a valid empty archive header at
byte 1024 and nothing (zero reads) at byte 1536. -/
def c6File : List Nat :=
  List.replicate 1024 0 ++ [55,70,80,82, 0,0,0,0, 0,0,0,0, 0,0,0,0]

/-- The resource entry named `r.rpf` (bytes of the lowercase name). -/
def c6ResEntry : ParsedEntry :=
  ⟨.res ⟨0, 5, 3, 0, 0x80000000, 0⟩, [114,46,114,112,102], [114,46,114,112,102]⟩

/-- The binary entry named `a.rpf` with payload block offset 2. -/
def c6BinEntry : ParsedEntry :=
  ⟨.bin ⟨0, 16, 2, 0, 0⟩, [97,46,114,112,102], [97,46,114,112,102]⟩

/-- A hierarchy whose root directory contains one resource `.rpf` entry and
one binary `.rpf` entry. -/
def c6Entries : List ParsedEntry :=
  [⟨.dir ⟨0, 1, 2⟩, [], []⟩, c6ResEntry, c6BinEntry]

/-- The child archive the nested scan opens from `c6Entries` over `c6File`:
it sits at `fileOffset * 512 = 1024`. -/
def c6Child : RpfArchive :=
  .mk 1024 [97,46,114,112,102] 0x52504637 0 0 0 [] none []

/-- Little-endian byte decomposition of a 64-bit word, written with the
arithmetic the specification's bit-slice notation denotes. -/
def le8 (w : Nat) : List Nat :=
  [w % 256, w / 256 % 256, w / 65536 % 256, w / 16777216 % 256,
   w / 4294967296 % 256, w / 1099511627776 % 256,
   w / 281474976710656 % 256, w / 72057594037927936 % 256]

/-- `(p, c)` is how `addNestedRpfs` is specified to register descendants:
`c` is reachable from `arch` through a chain of `children` links, and `p`
is `base` extended with `/` and each chain member's file name. -/
inductive NestedUnder : List Nat → RpfArchive → List Nat → RpfArchive → Prop where
  | child {base : List Nat} {arch c : RpfArchive} :
      c ∈ arch.children → NestedUnder base arch (base ++ [47] ++ c.fileName) c
  | descend {base : List Nat} {arch c1 c : RpfArchive} {p : List Nat} :
      c1 ∈ arch.children → NestedUnder (base ++ [47] ++ c1.fileName) c1 p c →
      NestedUnder base arch p c

/-! ### Helper lemmas -/

set_option maxRecDepth 1000000

theorem readSyncFill_length (file : List Nat) (pos len : Nat) :
    (readSyncFill file pos len).length = len := by
  simp [readSyncFill]

theorem readSyncFill_getD (file : List Nat) (pos len k : Nat) :
    (readSyncFill file pos len).getD k 0 =
      if k < len then file.getD (pos + k) 0 else 0 := by
  unfold readSyncFill
  rcases Nat.lt_or_ge k len with h | h
  · rw [if_pos h]
    rw [List.getD_eq_getElem?_getD, List.getElem?_map, List.getElem?_range h]
    rfl
  · rw [if_neg (by omega)]
    apply List.getD_eq_default
    simp [h]

theorem processBlocks_length_aux (f : List Nat → List Nat)
    (hf : ∀ l : List Nat, l.length = 16 → (f l).length = 16) :
    ∀ (n : Nat) (data : List Nat), data.length ≤ n →
      (processBlocks f data).length = data.length := by
  intro n
  induction n with
  | zero =>
    intro data h
    rw [processBlocks]
    split
    · omega
    · rfl
  | succ n ih =>
    intro data h
    rw [processBlocks]
    split
    · next h16 =>
      have hd := ih (data.drop 16) (by simp; omega)
      have ht : (data.take 16).length = 16 := by simp; omega
      simp [hf _ ht, hd]
      omega
    · rfl

theorem processBlocks_length (f : List Nat → List Nat)
    (hf : ∀ l : List Nat, l.length = 16 → (f l).length = 16) (data : List Nat) :
    (processBlocks f data).length = data.length :=
  processBlocks_length_aux f hf data.length data le_rfl

theorem listOfB16_length (s : B16) : (listOfB16 s).length = 16 := by
  simp [listOfB16]

theorem blockLoop_zero (f : List Nat → List Nat) (data : List Nat) :
    blockLoop f 0 data = List.replicate data.length 0 := rfl

theorem blockLoop_succ (f : List Nat → List Nat) (fuel : Nat) (data : List Nat) :
    blockLoop f (fuel+1) data =
      if 16 ≤ data.length then f (data.take 16) ++ blockLoop f fuel (data.drop 16)
      else data := rfl

theorem blockLoop_length (f : List Nat → List Nat)
    (hf : ∀ l, l.length = 16 → (f l).length = 16) :
    ∀ (fuel : Nat) (data : List Nat), (blockLoop f fuel data).length = data.length := by
  intro fuel
  induction fuel with
  | zero => intro data; rw [blockLoop_zero, List.length_replicate]
  | succ fuel ih =>
    intro data
    rw [blockLoop_succ]
    by_cases h : 16 ≤ data.length
    · rw [if_pos h, List.length_append, hf _ (by rw [List.length_take]; omega), ih,
        List.length_drop]
      omega
    · rw [if_neg h]

theorem blockLoop_eq_processBlocks (f : List Nat → List Nat) :
    ∀ (fuel : Nat) (data : List Nat), data.length ≤ 16 * fuel →
      blockLoop f fuel data = processBlocks f data := by
  intro fuel
  induction fuel with
  | zero =>
    intro data h
    have hnil : data = [] := List.eq_nil_of_length_eq_zero (by omega)
    rw [hnil, blockLoop_zero, processBlocks, dif_neg (by simp)]
    rfl
  | succ fuel ih =>
    intro data h
    rw [blockLoop_succ, processBlocks]
    by_cases h16 : 16 ≤ data.length
    · rw [if_pos h16, dif_pos h16, ih (data.drop 16) (by rw [List.length_drop]; omega)]
    · rw [if_neg h16, dif_neg h16]

theorem aesIters_small (len : Nat) (h : len + 15 < 2147483648) :
    aesIters len = (len + 15) / 16 := by
  unfold aesIters aesRounds jsToInt32
  rw [Nat.mod_eq_of_lt (by omega), if_pos h]
  rfl

theorem decryptAES_eq_processBlocks (data : List Nat)
    (h : data.length + 15 < 2147483648) :
    GTACrypto.decryptAES data =
      processBlocks (fun b => listOfB16 (aesDecryptB (b16OfList b))) data := by
  rw [GTACrypto.decryptAES, aesIters_small _ h]
  exact blockLoop_eq_processBlocks _ _ _ (by omega)

theorem encryptAES_eq_processBlocks (data : List Nat)
    (h : data.length + 15 < 2147483648) :
    GTACrypto.encryptAES data =
      processBlocks (fun b => listOfB16 (aesEncryptB (b16OfList b))) data := by
  rw [GTACrypto.encryptAES, aesIters_small _ h]
  exact blockLoop_eq_processBlocks _ _ _ (by omega)

theorem decryptAES_length (data : List Nat) :
    (GTACrypto.decryptAES data).length = data.length :=
  blockLoop_length _ (fun l _ => listOfB16_length _) _ data

theorem encryptAES_length (data : List Nat) :
    (GTACrypto.encryptAES data).length = data.length :=
  blockLoop_length _ (fun l _ => listOfB16_length _) _ data

theorem decryptNG_length (data name : List Nat) (size : Nat) :
    (GTACrypto.decryptNG data name size).length = data.length := by
  simp [GTACrypto.decryptNG]

/-- The no-inflate branch of the data pipeline always succeeds and returns
exactly `fileSize` bytes. -/
theorem getFileData_no_inflate (file : List Nat) (startPos encryption : Nat)
    (e : FileEntryView)
    (h : ¬(e.fileUncompressedSize > 0 ∧ e.fileUncompressedSize ≠ e.fileSize)) :
    ∃ out, getFileData file startPos encryption e = .ok out ∧
      out.length = e.fileSize := by
  unfold getFileData
  rw [if_neg h]
  refine ⟨_, rfl, ?_⟩
  split
  · split
    · rw [decryptAES_length, readSyncFill_length]
    · split
      · rw [decryptNG_length, readSyncFill_length]
      · rw [readSyncFill_length]
  · rw [readSyncFill_length]

theorem and_1 (x : Nat) : x &&& 1 = x % 2 := by
  have h := Nat.and_pow_two_sub_one_eq_mod x 1
  norm_num at h
  simp [h]

theorem and_15 (x : Nat) : x &&& 15 = x % 16 := by
  have h := Nat.and_pow_two_sub_one_eq_mod x 4
  norm_num at h
  exact h

theorem and_127 (x : Nat) : x &&& 127 = x % 128 := by
  have h := Nat.and_pow_two_sub_one_eq_mod x 7
  norm_num at h
  exact h

theorem and_255 (x : Nat) : x &&& 255 = x % 256 := by
  have h := Nat.and_pow_two_sub_one_eq_mod x 8
  norm_num at h
  exact h

theorem and_2047 (x : Nat) : x &&& 2047 = x % 2048 := by
  have h := Nat.and_pow_two_sub_one_eq_mod x 11
  norm_num at h
  exact h

theorem and_65535 (x : Nat) : x &&& 65535 = x % 65536 := by
  have h := Nat.and_pow_two_sub_one_eq_mod x 16
  norm_num at h
  exact h

theorem and_16777215 (x : Nat) : x &&& 16777215 = x % 16777216 := by
  have h := Nat.and_pow_two_sub_one_eq_mod x 24
  norm_num at h
  exact h

theorem and_4294967295 (x : Nat) : x &&& 4294967295 = x % 4294967296 := by
  have h := Nat.and_pow_two_sub_one_eq_mod x 32
  norm_num at h
  exact h

/-! ### Claim theorems -/

/-- C1: opening the minimal E1 archive does not succeed: `parseEntries`
reads the discriminator from the word at offset 8 of the record — the
entries-count word, which E1 sets to 1 — so the directory record is
classified as a binary file entry, and its sentinel word `0x7FFFFF00`
lands in the high half of `d2`, making `read` throw
`Invalid binary file entry`.  `list_directory` and `read_file` are
therefore unreachable for E1. -/
theorem c1_e1_open_throws_invalid_binary_entry :
    scanStructure e1File 1 0 [] = .error .invalidBinaryEntry := by
  rfl

/-- C3: rewriting the E1 directory record's fourth word (the sentinel) to
`0x7FFFFF01` does not produce `InvalidDirectoryEntry`: the record is still
classified by the word at offset 8 (equal to 1), hence parsed as a binary
file entry, and opening fails with `InvalidBinaryEntry` — the directory
sentinel check is never reached. -/
theorem c3_e2_open_fails_with_invalid_binary_entry :
    scanStructure e2File 1 0 [] = .error .invalidBinaryEntry ∧
    ∀ v, scanStructure e2File 1 0 [] ≠ .error (.invalidDirectoryEntry v) := by
  refine ⟨rfl, fun v h => ?_⟩
  rw [show scanStructure e2File 1 0 [] = Except.error RpfError.invalidBinaryEntry
    from rfl] at h
  simp at h

/-- C4 counterexample: a file entry over a valid zlib stream (one stored
block decoding to the single byte `A`) with on-disk size 12 and
uncompressed size 7 takes the inflate branch and `read_file` returns 1
byte, not the claimed `uncompressed_size` = 7: the inflated length is
never validated. -/
theorem c4_inflate_length_counterexample :
    getFileData c4Payload 0 0 c4Entry = .ok [65] ∧
    c4Entry.fileUncompressedSize = 7 ∧ c4Entry.fileSize = 12 ∧
    (7 : Nat) > 0 ∧ (7 : Nat) ≠ 12 ∧ ([65] : List Nat).length ≠ 7 := by
  exact ⟨rfl, rfl, rfl, by decide, by decide, by decide⟩

/-- C4 amended: `read_file` returns a buffer of length exactly
`on_disk_size` whenever `uncompressed_size = 0` or `uncompressed_size =
on_disk_size`; in the remaining case the decrypted payload is inflated as
a zlib-wrapped stream (not raw deflate) and the inflated bytes are
returned without any length check against `uncompressed_size`. -/
theorem c4_read_length_amended (file : List Nat) (startPos encryption : Nat)
    (e : FileEntryView)
    (h : ¬(e.fileUncompressedSize > 0 ∧ e.fileUncompressedSize ≠ e.fileSize)) :
    ∃ out, getFileData file startPos encryption e = .ok out ∧
      out.length = e.fileSize :=
  getFileData_no_inflate file startPos encryption e h

/-- C4 amended, witness at a concrete uncompressed entry. -/
theorem c4_read_length_amended_witness :
    ∃ out, getFileData [10, 20, 30] 0 0 ⟨[], 0, 3, 0, false⟩ = .ok out ∧
      out.length = (3 : Nat) :=
  c4_read_length_amended [10, 20, 30] 0 0 ⟨[], 0, 3, 0, false⟩ (by decide)

/-- C5 counterexample: a resource record whose on-disk size field is 5 (not
the `0xFFFFFF` marker) parses with `fileUncompressedSize = 0`, which is
not equal to its on-disk size 5 — resource uncompressed size equals
on-disk size only in the `0xFFFFFF` branch. -/
theorem c5_resource_uncompressed_size_counterexample :
    readEntryRecord c5Record 0 = .ok (.res ⟨3, 5, 2, 0, 0x80000000, 0⟩) ∧
    (RpfResourceFileEntry.read c5Record 0).fileUncompressedSize = 0 ∧
    (RpfResourceFileEntry.read c5Record 0).fileSize = 5 ∧ (0 : Nat) ≠ 5 :=
  ⟨rfl, rfl, rfl, by decide⟩

/-- C5 amended: a record classified as a resource parses without error; when
its on-disk size field is `0xFFFFFF` both sizes become the §4.3
reconstruction (so uncompressed = on-disk there), otherwise the
uncompressed size stays 0; either way the data pipeline never inflates a
resource entry and returns exactly `fileSize` bytes; and the
reconstruction is exactly the §4.3 bit-shift formula. -/
theorem c5_resource_sizes_amended (data : List Nat) (off : Nat)
    (hne : getUint32 data (off+8) ≠ 0x7FFFFF00)
    (hhi : getUint32 data (off+8) &&& 0x80000000 ≠ 0) :
    readEntryRecord data off = .ok (.res (RpfResourceFileEntry.read data off)) ∧
    (((getUint64 data off >>> 16) &&& 0xFFFFFF = 0xFFFFFF →
        (RpfResourceFileEntry.read data off).fileSize =
          RpfResourceFileEntry.getResourceSize
            (RpfResourceFileEntry.read data off).systemFlags
            (RpfResourceFileEntry.read data off).graphicsFlags ∧
        (RpfResourceFileEntry.read data off).fileUncompressedSize =
          (RpfResourceFileEntry.read data off).fileSize) ∧
     ((getUint64 data off >>> 16) &&& 0xFFFFFF ≠ 0xFFFFFF →
        (RpfResourceFileEntry.read data off).fileSize =
          (getUint64 data off >>> 16) &&& 0xFFFFFF ∧
        (RpfResourceFileEntry.read data off).fileUncompressedSize = 0)) ∧
    (∀ file startPos encryption name, ∃ out,
        getFileData file startPos encryption
          ((RpfResourceFileEntry.read data off).view name) = .ok out ∧
        out.length = (RpfResourceFileEntry.read data off).fileSize) ∧
    (∀ sys gfx, RpfResourceFileEntry.getResourceSize sys gfx =
        (if sys / 134217728 % 2 = 1 then 16 else 0) +
        (sys % 2048) * 2 ^ (sys / 2048 % 16) +
        (sys / 32768 % 128) * 2 ^ (sys / 33554432 % 16) +
        (gfx % 2048) * 2 ^ (gfx / 2048 % 16) +
        (gfx / 32768 % 128) * 2 ^ (gfx / 33554432 % 16)) := by
  refine ⟨?_, ⟨?_, ?_⟩, ?_, ?_⟩
  · unfold readEntryRecord
    rw [if_neg hne, if_neg hhi]
  · intro hface
    unfold RpfResourceFileEntry.read
    rw [if_pos hface]
    exact ⟨rfl, rfl⟩
  · intro hface
    unfold RpfResourceFileEntry.read
    rw [if_neg hface]
    exact ⟨rfl, rfl⟩
  · intro file startPos encryption name
    apply getFileData_no_inflate
    by_cases hface : (getUint64 data off >>> 16) &&& 0xFFFFFF = 0xFFFFFF
    · simp [RpfResourceFileEntry.read, RpfResourceFileEntry.view, hface]
    · simp [RpfResourceFileEntry.read, RpfResourceFileEntry.view, hface]
  · intro sys gfx
    unfold RpfResourceFileEntry.getResourceSize
    simp only [Nat.shiftRight_eq_div_pow, Nat.shiftLeft_eq, and_1, and_15,
      and_127, and_2047]
    norm_num

/-- C9 counterexample: reads past end-of-file raise no `Truncated` error.
`read_file` on an entry whose payload lies entirely beyond an empty
backing file silently returns five zero bytes that were never read from
the file, and `open` on a 16-byte file whose header promises a 32-byte
entries table and 4 names bytes succeeds, fabricating two all-zero
entries from the zero fill. -/
theorem c9_silent_zero_fill_counterexample :
    getFileData [] 0 0 ⟨[], 1, 5, 0, false⟩ = .ok [0, 0, 0, 0, 0] ∧
    ([] : List Nat).length = 0 ∧
    scanStructure truncFile 1 0 [] = .ok truncArch ∧
    truncFile.length = 16 ∧ truncArch.entryCount = 2 :=
  ⟨rfl, rfl, rfl, rfl, rfl⟩

/-- C9 amended: every read performed by `open` or the data pipeline is a
`readSyncFill`, which never fails: it returns exactly `len` bytes and any
byte beyond end-of-file reads as zero.  In particular `read_file` of an
unencrypted, non-inflated entry returns the zero-filled buffer itself —
missing payload bytes become zeros, not an error. -/
theorem c9_zero_fill_amended :
    (∀ (file : List Nat) (pos len : Nat),
       (readSyncFill file pos len).length = len ∧
       ∀ i, i < len → file.length ≤ pos + i →
         (readSyncFill file pos len).getD i 0 = 0) ∧
    (∀ (file : List Nat) (startPos encryption : Nat) (e : FileEntryView),
       e.isEncrypted = false →
       ¬(e.fileUncompressedSize > 0 ∧ e.fileUncompressedSize ≠ e.fileSize) →
       getFileData file startPos encryption e =
         .ok (readSyncFill file (startPos + e.fileOffset * 512) e.fileSize)) := by
  constructor
  · intro file pos len
    refine ⟨readSyncFill_length file pos len, fun i hi hoob => ?_⟩
    rw [readSyncFill_getD, if_pos hi]
    exact List.getD_eq_default _ _ hoob
  · intro file startPos encryption e henc hinf
    unfold getFileData
    rw [if_neg hinf, henc]
    simp

/-- C9 amended, witness at an empty backing file. -/
theorem c9_zero_fill_amended_witness :
    ((readSyncFill ([] : List Nat) 1 5).length = 5 ∧
     ∀ i, i < 5 → ([] : List Nat).length ≤ 1 + i →
       (readSyncFill ([] : List Nat) 1 5).getD i 0 = 0) ∧
    getFileData [] 0 0 ⟨[], 1, 5, 0, false⟩ =
      .ok (readSyncFill [] (0 + 1 * 512) 5) :=
  ⟨c9_zero_fill_amended.1 [] 1 5,
   c9_zero_fill_amended.2 [] 0 0 ⟨[], 1, 5, 0, false⟩ rfl (by decide)⟩

/-- C8: a 16-byte record assembled from little-endian words `d1, d2` whose
discriminator word (`h2`, bytes 8..11) is neither the directory sentinel
nor has its high bit set decodes as a binary entry with name offset
`d1[0..16)`, on-disk size `d1[16..40)`, payload block offset `d1[40..64)`,
uncompressed size `d2[0..24)`, encryption type `d2[24..32)`, and fails
with `InvalidBinaryEntry` exactly when the high 32 bits of `d2` are
nonzero. -/
theorem c8_binary_record_layout (d1 d2 : Nat)
    (hd1 : d1 < 18446744073709551616) (hd2 : d2 < 18446744073709551616)
    (hne : d2 % 4294967296 ≠ 0x7FFFFF00)
    (hbit : d2 % 4294967296 < 2147483648) :
    readEntryRecord (le8 d1 ++ le8 d2) 0 =
      (if d2 / 4294967296 ≠ 0 then .error .invalidBinaryEntry
       else .ok (.bin ⟨d1 % 65536, d1 / 65536 % 16777216,
         d1 / 1099511627776 % 16777216, d2 % 16777216, d2 / 16777216 % 256⟩)) := by
  have h32 : getUint32 (le8 d1 ++ le8 d2) (0+8) = d2 % 4294967296 := by
    simp [le8, getUint32, List.getD]; omega
  have h64a : getUint64 (le8 d1 ++ le8 d2) 0 = d1 := by
    simp [le8, getUint64, getUint32, List.getD]; omega
  have h64b : getUint64 (le8 d1 ++ le8 d2) (0+8) = d2 := by
    simp [le8, getUint64, getUint32, List.getD]; omega
  have hmask : d2 % 4294967296 &&& 2147483648 = 0 := by
    have h31 : (2147483648 : Nat) = 2 ^ 31 := by norm_num
    rw [h31, Nat.and_two_pow, Nat.testBit_lt_two_pow (by norm_num; exact hbit)]
    rfl
  simp only [readEntryRecord, RpfBinaryFileEntry.read]
  rw [h32, if_neg hne, if_pos hmask, h64a, h64b]
  rw [apply_ite (Except.map RpfEntryKind.bin)]
  simp only [Except.map, Nat.shiftRight_eq_div_pow, and_65535, and_16777215, and_255]

/-- C8 witness: a concrete in-range record (name offset 9, size 5, block 1,
uncompressed 7, encryption type 3, high half of `d2` zero) decodes to the
expected binary entry. -/
theorem c8_binary_record_layout_witness :
    readEntryRecord (le8 1099511955465 ++ le8 50331655) 0 =
      (if (50331655 : Nat) / 4294967296 ≠ 0 then .error .invalidBinaryEntry
       else .ok (.bin ⟨1099511955465 % 65536, 1099511955465 / 65536 % 16777216,
         1099511955465 / 1099511627776 % 16777216, 50331655 % 16777216,
         50331655 / 16777216 % 256⟩)) :=
  c8_binary_record_layout 1099511955465 50331655 (by norm_num) (by norm_num)
    (by norm_num) (by norm_num)

/-- C5 amended, witness at the concrete resource record `c5Record`. -/
theorem c5_resource_sizes_amended_witness :
    readEntryRecord c5Record 0 = .ok (.res (RpfResourceFileEntry.read c5Record 0)) ∧
    (((getUint64 c5Record 0 >>> 16) &&& 0xFFFFFF = 0xFFFFFF →
        (RpfResourceFileEntry.read c5Record 0).fileSize =
          RpfResourceFileEntry.getResourceSize
            (RpfResourceFileEntry.read c5Record 0).systemFlags
            (RpfResourceFileEntry.read c5Record 0).graphicsFlags ∧
        (RpfResourceFileEntry.read c5Record 0).fileUncompressedSize =
          (RpfResourceFileEntry.read c5Record 0).fileSize) ∧
     ((getUint64 c5Record 0 >>> 16) &&& 0xFFFFFF ≠ 0xFFFFFF →
        (RpfResourceFileEntry.read c5Record 0).fileSize =
          (getUint64 c5Record 0 >>> 16) &&& 0xFFFFFF ∧
        (RpfResourceFileEntry.read c5Record 0).fileUncompressedSize = 0)) ∧
    (∀ file startPos encryption name, ∃ out,
        getFileData file startPos encryption
          ((RpfResourceFileEntry.read c5Record 0).view name) = .ok out ∧
        out.length = (RpfResourceFileEntry.read c5Record 0).fileSize) ∧
    (∀ sys gfx, RpfResourceFileEntry.getResourceSize sys gfx =
        (if sys / 134217728 % 2 = 1 then 16 else 0) +
        (sys % 2048) * 2 ^ (sys / 2048 % 16) +
        (sys / 32768 % 128) * 2 ^ (sys / 33554432 % 16) +
        (gfx % 2048) * 2 ^ (gfx / 2048 % 16) +
        (gfx / 32768 % 128) * 2 ^ (gfx / 33554432 % 16)) :=
  c5_resource_sizes_amended c5Record 0 (by decide) (by decide)

theorem map_range_getD (f : Nat → Nat) (n i : Nat) (h : i < n) :
    ((List.range n).map f).getD i 0 = f i := by
  rw [List.getD_eq_getElem?_getD, List.getElem?_map, List.getElem?_range h]
  rfl

theorem map_range_getD_self (l : List Nat) :
    (List.range l.length).map (fun i => l.getD i 0) = l := by
  apply List.ext_getElem (by simp)
  intro i h1 h2
  simp [List.getD_eq_getElem?_getD, List.getElem?_eq_getElem h2]

theorem shaStep_length (chunk st : List Nat) (i : Nat) :
    (shaStep chunk st i).length = 8 := by
  simp [shaStep]

theorem foldl_shaStep_length (chunk : List Nat) (l : List Nat) (st : List Nat)
    (h : st.length = 8) : (l.foldl (shaStep chunk) st).length = 8 := by
  induction l generalizing st with
  | nil => exact h
  | cons x xs ih => exact ih _ (shaStep_length chunk st x)

theorem shaChunk_length (hsh chunk : List Nat) (h : hsh.length = 8) :
    (shaChunk hsh chunk).length = 8 := by
  unfold shaChunk
  rw [List.length_zipWith, foldl_shaStep_length chunk _ _ h, h]
  simp

theorem foldl_shaChunk_length (cs : List (List Nat)) (hsh : List Nat)
    (h : hsh.length = 8) : (cs.foldl shaChunk hsh).length = 8 := by
  induction cs generalizing hsh with
  | nil => exact h
  | cons c cs ih => exact ih _ (shaChunk_length hsh c h)

theorem sha256_length (msg : List Nat) : (sha256 msg).length = 32 := by
  unfold sha256
  have h8 : ((chunks64 (shaPad msg)).foldl shaChunk shaH0).length = 8 :=
    foldl_shaChunk_length _ _ (by simp [shaH0])
  generalize hh : (chunks64 (shaPad msg)).foldl shaChunk shaH0 = hs at h8
  match hs, h8 with
  | [a, b, c, d, e, f, g, h], _ => simp [be4]

theorem be4_mem_lt (w b : Nat) (h : b ∈ be4 w) : b < 256 := by
  simp [be4] at h
  rcases h with h | h | h | h <;> rw [h, and_255] <;> exact Nat.mod_lt _ (by norm_num)

theorem getD_mem_of_lt (l : List Nat) (i : Nat) (h : i < l.length) :
    l.getD i 0 ∈ l := by
  rw [List.getD_eq_getElem?_getD, List.getElem?_eq_getElem h]
  exact List.getElem_mem h

theorem sha256_bytes_lt (msg : List Nat) : ∀ b ∈ sha256 msg, b < 256 := by
  intro b hb
  unfold sha256 at hb
  rw [List.mem_flatten] at hb
  rcases hb with ⟨l, hl, hbl⟩
  rw [List.mem_map] at hl
  rcases hl with ⟨w, _, hw⟩
  exact be4_mem_lt w b (hw ▸ hbl)

/-- C10: NG decryption is byte-wise XOR against the SHA-256 digest of the
lowercased name followed by the little-endian 32-bit size, cycling the
32-byte digest; the output length equals the input length, `encryptNG`
equals `decryptNG`, and applying `decryptNG` twice with the same name and
size restores the original buffer. -/
theorem c10_ng_xor_involution (data name : List Nat) (size : Nat)
    (hdata : ∀ b ∈ data, b < 256) :
    (GTACrypto.decryptNG data name size).length = data.length ∧
    (∀ (d n : List Nat) (s : Nat), GTACrypto.encryptNG d n s = GTACrypto.decryptNG d n s) ∧
    GTACrypto.decryptNG (GTACrypto.decryptNG data name size) name size = data ∧
    GTACrypto.generateNGKey name size = sha256 (name.map toLowerByte ++ sizeLE4 size) ∧
    (GTACrypto.generateNGKey name size).length = 32 ∧
    (∀ i, i < data.length →
      (GTACrypto.decryptNG data name size).getD i 0 =
        (data.getD i 0 ^^^
          (GTACrypto.generateNGKey name size).getD
            (i % (GTACrypto.generateNGKey name size).length) 0) % 256) := by
  have hkey : ∀ j, (GTACrypto.generateNGKey name size).getD j 0 < 256 := by
    intro j
    rcases Nat.lt_or_ge j (GTACrypto.generateNGKey name size).length with h | h
    · exact sha256_bytes_lt _ _ (getD_mem_of_lt _ _ h)
    · rw [List.getD_eq_default _ _ h]; norm_num
  refine ⟨by simp [GTACrypto.decryptNG], fun d n s => rfl, ?_, rfl,
    sha256_length _, ?_⟩
  · unfold GTACrypto.decryptNG
    rw [List.length_map, List.length_range]
    rw [List.map_congr_left (g := fun i => data.getD i 0), map_range_getD_self]
    intro i hi
    rw [List.mem_range] at hi
    rw [map_range_getD _ _ _ hi]
    have hd := hdata _ (getD_mem_of_lt data i hi)
    have hk := hkey (i % (GTACrypto.generateNGKey name size).length)
    have hx : data.getD i 0 ^^^
        (GTACrypto.generateNGKey name size).getD
          (i % (GTACrypto.generateNGKey name size).length) 0 < 256 := by
      have := Nat.xor_lt_two_pow (n := 8) (by simpa using hd) (by simpa using hk)
      simpa using this
    rw [Nat.mod_eq_of_lt hx, Nat.xor_cancel_right, Nat.mod_eq_of_lt hd]
  · intro i hi
    unfold GTACrypto.decryptNG
    rw [map_range_getD _ _ _ hi]

/-- C10 witness at a concrete buffer, name and size. -/
theorem c10_ng_xor_involution_witness :
    (GTACrypto.decryptNG [1, 2, 3] [72, 73] 5).length = ([1, 2, 3] : List Nat).length ∧
    (∀ (d n : List Nat) (s : Nat),
      GTACrypto.encryptNG d n s = GTACrypto.decryptNG d n s) ∧
    GTACrypto.decryptNG (GTACrypto.decryptNG [1, 2, 3] [72, 73] 5) [72, 73] 5 = [1, 2, 3] ∧
    GTACrypto.generateNGKey [72, 73] 5 =
      sha256 ([72, 73].map toLowerByte ++ sizeLE4 5) ∧
    (GTACrypto.generateNGKey [72, 73] 5).length = 32 ∧
    (∀ i, i < ([1, 2, 3] : List Nat).length →
      (GTACrypto.decryptNG [1, 2, 3] [72, 73] 5).getD i 0 =
        (([1, 2, 3] : List Nat).getD i 0 ^^^
          (GTACrypto.generateNGKey [72, 73] 5).getD
            (i % (GTACrypto.generateNGKey [72, 73] 5).length) 0) % 256) :=
  c10_ng_xor_involution [1, 2, 3] [72, 73] 5 (by decide)

instance : Std.Associative (α := Nat) (· ^^^ ·) := ⟨Nat.xor_assoc⟩

instance : Std.Commutative (α := Nat) (· ^^^ ·) := ⟨Nat.xor_comm⟩

theorem xor_lt_256 {a b : Nat} (ha : a < 256) (hb : b < 256) : a ^^^ b < 256 := by
  have h := Nat.xor_lt_two_pow (n := 8) (by simpa using ha) (by simpa using hb)
  simpa using h

theorem shiftLeft_one_xor (a b : Nat) : (a ^^^ b) <<< 1 = a <<< 1 ^^^ b <<< 1 := by
  apply Nat.eq_of_testBit_eq
  intro i
  simp [Nat.testBit_shiftLeft, Nat.testBit_xor]
  cases Nat.lt_or_ge i 1 with
  | inl h => interval_cases i; simp
  | inr h => simp [decide_eq_true (by omega : 1 ≤ i)]

theorem and_128_cases (x : Nat) : x &&& 128 = 0 ∨ x &&& 128 = 128 := by
  have h : x &&& 128 = (x.testBit 7).toNat * 128 := by
    have := Nat.and_two_pow x 7
    norm_num at this
    exact this
  rcases Bool.eq_false_or_eq_true (x.testBit 7) with hb | hb <;>
    rw [h, hb] <;> simp

/-- `xtime` is GF(2)-linear: it distributes over XOR. -/
theorem xtime_linear (x y : Nat) : xtime (x ^^^ y) = xtime x ^^^ xtime y := by
  have hand : (x ^^^ y) &&& 128 = (x &&& 128) ^^^ (y &&& 128) :=
    Nat.and_xor_distrib_right
  have hmask : ∀ a b : Nat, (a ^^^ b) &&& 255 = (a &&& 255) ^^^ (b &&& 255) :=
    fun a b => Nat.and_xor_distrib_right
  unfold xtime
  by_cases hx : x &&& 128 = 0 <;> by_cases hy : y &&& 128 = 0
  · rw [if_pos hx, if_pos hy, if_pos (by rw [hand, hx, hy]; rfl)]
    rw [shiftLeft_one_xor]
    exact hmask _ _
  · have hy' : y &&& 128 = 128 := (and_128_cases y).resolve_left hy
    rw [if_pos hx, if_neg hy, if_neg (by rw [hand, hx, hy']; decide)]
    rw [shiftLeft_one_xor, Nat.xor_assoc]
    exact hmask _ _
  · have hx' : x &&& 128 = 128 := (and_128_cases x).resolve_left hx
    rw [if_neg hx, if_pos hy, if_neg (by rw [hand, hx', hy]; decide)]
    rw [shiftLeft_one_xor]
    have h1 : (x <<< 1 ^^^ y <<< 1) ^^^ 27 = (x <<< 1 ^^^ 27) ^^^ y <<< 1 := by
      ac_rfl
    rw [h1]
    exact hmask _ _
  · have hx' : x &&& 128 = 128 := (and_128_cases x).resolve_left hx
    have hy' : y &&& 128 = 128 := (and_128_cases y).resolve_left hy
    rw [if_neg hx, if_neg hy, if_pos (by rw [hand, hx', hy']; decide)]
    rw [shiftLeft_one_xor, ← hmask]
    have h1 : (x <<< 1 ^^^ 27) ^^^ (y <<< 1 ^^^ 27) =
        (x <<< 1 ^^^ y <<< 1) ^^^ (27 ^^^ 27) := by ac_rfl
    rw [h1, Nat.xor_self, Nat.xor_zero]

theorem gm2_linear4 (a b c d : Nat) :
    gm2 (a ^^^ b ^^^ c ^^^ d) = gm2 a ^^^ gm2 b ^^^ gm2 c ^^^ gm2 d := by
  unfold gm2
  rw [xtime_linear, xtime_linear, xtime_linear]

theorem gm3_linear4 (a b c d : Nat) :
    gm3 (a ^^^ b ^^^ c ^^^ d) = gm3 a ^^^ gm3 b ^^^ gm3 c ^^^ gm3 d := by
  unfold gm3
  rw [xtime_linear, xtime_linear, xtime_linear]
  ac_rfl

theorem combo_r0_k0 : ∀ x < 256, gm2 (gm14 x) ^^^ gm3 (gm9 x) ^^^ gm13 x ^^^ gm11 x = x := by decide

theorem combo_r0_k1 : ∀ x < 256, gm2 (gm11 x) ^^^ gm3 (gm14 x) ^^^ gm9 x ^^^ gm13 x = 0 := by decide

theorem combo_r0_k2 : ∀ x < 256, gm2 (gm13 x) ^^^ gm3 (gm11 x) ^^^ gm14 x ^^^ gm9 x = 0 := by decide

theorem combo_r0_k3 : ∀ x < 256, gm2 (gm9 x) ^^^ gm3 (gm13 x) ^^^ gm11 x ^^^ gm14 x = 0 := by decide

theorem combo_r1_k0 : ∀ x < 256, gm14 x ^^^ gm2 (gm9 x) ^^^ gm3 (gm13 x) ^^^ gm11 x = 0 := by decide

theorem combo_r1_k1 : ∀ x < 256, gm11 x ^^^ gm2 (gm14 x) ^^^ gm3 (gm9 x) ^^^ gm13 x = x := by decide

theorem combo_r1_k2 : ∀ x < 256, gm13 x ^^^ gm2 (gm11 x) ^^^ gm3 (gm14 x) ^^^ gm9 x = 0 := by decide

theorem combo_r1_k3 : ∀ x < 256, gm9 x ^^^ gm2 (gm13 x) ^^^ gm3 (gm11 x) ^^^ gm14 x = 0 := by decide

theorem combo_r2_k0 : ∀ x < 256, gm14 x ^^^ gm9 x ^^^ gm2 (gm13 x) ^^^ gm3 (gm11 x) = 0 := by decide

theorem combo_r2_k1 : ∀ x < 256, gm11 x ^^^ gm14 x ^^^ gm2 (gm9 x) ^^^ gm3 (gm13 x) = 0 := by decide

theorem combo_r2_k2 : ∀ x < 256, gm13 x ^^^ gm11 x ^^^ gm2 (gm14 x) ^^^ gm3 (gm9 x) = x := by decide

theorem combo_r2_k3 : ∀ x < 256, gm9 x ^^^ gm13 x ^^^ gm2 (gm11 x) ^^^ gm3 (gm14 x) = 0 := by decide

theorem combo_r3_k0 : ∀ x < 256, gm3 (gm14 x) ^^^ gm9 x ^^^ gm13 x ^^^ gm2 (gm11 x) = 0 := by decide

theorem combo_r3_k1 : ∀ x < 256, gm3 (gm11 x) ^^^ gm14 x ^^^ gm9 x ^^^ gm2 (gm13 x) = 0 := by decide

theorem combo_r3_k2 : ∀ x < 256, gm3 (gm13 x) ^^^ gm11 x ^^^ gm14 x ^^^ gm2 (gm9 x) = 0 := by decide

theorem combo_r3_k3 : ∀ x < 256, gm3 (gm9 x) ^^^ gm13 x ^^^ gm11 x ^^^ gm2 (gm14 x) = x := by decide

theorem mixcol_comp0 (a b c d : Nat) (ha : a < 256) (hb : b < 256)
    (hc : c < 256) (hd : d < 256) :
    gm2 (gm14 a ^^^ gm11 b ^^^ gm13 c ^^^ gm9 d) ^^^
      gm3 (gm9 a ^^^ gm14 b ^^^ gm11 c ^^^ gm13 d) ^^^
      (gm13 a ^^^ gm9 b ^^^ gm14 c ^^^ gm11 d) ^^^
      (gm11 a ^^^ gm13 b ^^^ gm9 c ^^^ gm14 d) = a := by
  rw [gm2_linear4, gm3_linear4]
  calc gm2 (gm14 a) ^^^ gm2 (gm11 b) ^^^ gm2 (gm13 c) ^^^ gm2 (gm9 d) ^^^
      (gm3 (gm9 a) ^^^ gm3 (gm14 b) ^^^ gm3 (gm11 c) ^^^ gm3 (gm13 d)) ^^^
      (gm13 a ^^^ gm9 b ^^^ gm14 c ^^^ gm11 d) ^^^
      (gm11 a ^^^ gm13 b ^^^ gm9 c ^^^ gm14 d)
      = (gm2 (gm14 a) ^^^ gm3 (gm9 a) ^^^ gm13 a ^^^ gm11 a) ^^^
        ((gm2 (gm11 b) ^^^ gm3 (gm14 b) ^^^ gm9 b ^^^ gm13 b) ^^^
         ((gm2 (gm13 c) ^^^ gm3 (gm11 c) ^^^ gm14 c ^^^ gm9 c) ^^^
          (gm2 (gm9 d) ^^^ gm3 (gm13 d) ^^^ gm11 d ^^^ gm14 d))) := by ac_rfl
    _ = a ^^^ (0 ^^^ (0 ^^^ 0)) := by
        rw [combo_r0_k0 a ha, combo_r0_k1 b hb, combo_r0_k2 c hc, combo_r0_k3 d hd]
    _ = a := by simp

theorem mixcol_comp1 (a b c d : Nat) (ha : a < 256) (hb : b < 256)
    (hc : c < 256) (hd : d < 256) :
    (gm14 a ^^^ gm11 b ^^^ gm13 c ^^^ gm9 d) ^^^
      gm2 (gm9 a ^^^ gm14 b ^^^ gm11 c ^^^ gm13 d) ^^^
      gm3 (gm13 a ^^^ gm9 b ^^^ gm14 c ^^^ gm11 d) ^^^
      (gm11 a ^^^ gm13 b ^^^ gm9 c ^^^ gm14 d) = b := by
  rw [gm2_linear4, gm3_linear4]
  calc (gm14 a ^^^ gm11 b ^^^ gm13 c ^^^ gm9 d) ^^^
      (gm2 (gm9 a) ^^^ gm2 (gm14 b) ^^^ gm2 (gm11 c) ^^^ gm2 (gm13 d)) ^^^
      (gm3 (gm13 a) ^^^ gm3 (gm9 b) ^^^ gm3 (gm14 c) ^^^ gm3 (gm11 d)) ^^^
      (gm11 a ^^^ gm13 b ^^^ gm9 c ^^^ gm14 d)
      = (gm14 a ^^^ gm2 (gm9 a) ^^^ gm3 (gm13 a) ^^^ gm11 a) ^^^
        ((gm11 b ^^^ gm2 (gm14 b) ^^^ gm3 (gm9 b) ^^^ gm13 b) ^^^
         ((gm13 c ^^^ gm2 (gm11 c) ^^^ gm3 (gm14 c) ^^^ gm9 c) ^^^
          (gm9 d ^^^ gm2 (gm13 d) ^^^ gm3 (gm11 d) ^^^ gm14 d))) := by ac_rfl
    _ = 0 ^^^ (b ^^^ (0 ^^^ 0)) := by
        rw [combo_r1_k0 a ha, combo_r1_k1 b hb, combo_r1_k2 c hc, combo_r1_k3 d hd]
    _ = b := by simp

theorem mixcol_comp2 (a b c d : Nat) (ha : a < 256) (hb : b < 256)
    (hc : c < 256) (hd : d < 256) :
    (gm14 a ^^^ gm11 b ^^^ gm13 c ^^^ gm9 d) ^^^
      (gm9 a ^^^ gm14 b ^^^ gm11 c ^^^ gm13 d) ^^^
      gm2 (gm13 a ^^^ gm9 b ^^^ gm14 c ^^^ gm11 d) ^^^
      gm3 (gm11 a ^^^ gm13 b ^^^ gm9 c ^^^ gm14 d) = c := by
  rw [gm2_linear4, gm3_linear4]
  calc (gm14 a ^^^ gm11 b ^^^ gm13 c ^^^ gm9 d) ^^^
      (gm9 a ^^^ gm14 b ^^^ gm11 c ^^^ gm13 d) ^^^
      (gm2 (gm13 a) ^^^ gm2 (gm9 b) ^^^ gm2 (gm14 c) ^^^ gm2 (gm11 d)) ^^^
      (gm3 (gm11 a) ^^^ gm3 (gm13 b) ^^^ gm3 (gm9 c) ^^^ gm3 (gm14 d))
      = (gm14 a ^^^ gm9 a ^^^ gm2 (gm13 a) ^^^ gm3 (gm11 a)) ^^^
        ((gm11 b ^^^ gm14 b ^^^ gm2 (gm9 b) ^^^ gm3 (gm13 b)) ^^^
         ((gm13 c ^^^ gm11 c ^^^ gm2 (gm14 c) ^^^ gm3 (gm9 c)) ^^^
          (gm9 d ^^^ gm13 d ^^^ gm2 (gm11 d) ^^^ gm3 (gm14 d)))) := by ac_rfl
    _ = 0 ^^^ (0 ^^^ (c ^^^ 0)) := by
        rw [combo_r2_k0 a ha, combo_r2_k1 b hb, combo_r2_k2 c hc, combo_r2_k3 d hd]
    _ = c := by simp

theorem mixcol_comp3 (a b c d : Nat) (ha : a < 256) (hb : b < 256)
    (hc : c < 256) (hd : d < 256) :
    gm3 (gm14 a ^^^ gm11 b ^^^ gm13 c ^^^ gm9 d) ^^^
      (gm9 a ^^^ gm14 b ^^^ gm11 c ^^^ gm13 d) ^^^
      (gm13 a ^^^ gm9 b ^^^ gm14 c ^^^ gm11 d) ^^^
      gm2 (gm11 a ^^^ gm13 b ^^^ gm9 c ^^^ gm14 d) = d := by
  rw [gm2_linear4, gm3_linear4]
  calc (gm3 (gm14 a) ^^^ gm3 (gm11 b) ^^^ gm3 (gm13 c) ^^^ gm3 (gm9 d)) ^^^
      (gm9 a ^^^ gm14 b ^^^ gm11 c ^^^ gm13 d) ^^^
      (gm13 a ^^^ gm9 b ^^^ gm14 c ^^^ gm11 d) ^^^
      (gm2 (gm11 a) ^^^ gm2 (gm13 b) ^^^ gm2 (gm9 c) ^^^ gm2 (gm14 d))
      = (gm3 (gm14 a) ^^^ gm9 a ^^^ gm13 a ^^^ gm2 (gm11 a)) ^^^
        ((gm3 (gm11 b) ^^^ gm14 b ^^^ gm9 b ^^^ gm2 (gm13 b)) ^^^
         ((gm3 (gm13 c) ^^^ gm11 c ^^^ gm14 c ^^^ gm2 (gm9 c)) ^^^
          (gm3 (gm9 d) ^^^ gm13 d ^^^ gm11 d ^^^ gm2 (gm14 d)))) := by ac_rfl
    _ = 0 ^^^ (0 ^^^ (0 ^^^ d)) := by
        rw [combo_r3_k0 a ha, combo_r3_k1 b hb, combo_r3_k2 c hc, combo_r3_k3 d hd]
    _ = d := by simp

theorem mixColumns_invMixColumns (s : B16) (hs : B16ok s) :
    mixColumns (invMixColumns s) = s := by
  cases s with
  | mk a0 a1 a2 a3 a4 a5 a6 a7 a8 a9 a10 a11 a12 a13 a14 a15 =>
    simp only [B16ok] at hs
    obtain ⟨h0, h1, h2, h3, h4, h5, h6, h7, h8, h9, h10, h11, h12, h13, h14, h15⟩ := hs
    simp only [invMixColumns, mixColumns, invMixCol, mixCol, B16.mk.injEq]
    exact ⟨mixcol_comp0 a0 a1 a2 a3 h0 h1 h2 h3, mixcol_comp1 a0 a1 a2 a3 h0 h1 h2 h3,
      mixcol_comp2 a0 a1 a2 a3 h0 h1 h2 h3, mixcol_comp3 a0 a1 a2 a3 h0 h1 h2 h3,
      mixcol_comp0 a4 a5 a6 a7 h4 h5 h6 h7, mixcol_comp1 a4 a5 a6 a7 h4 h5 h6 h7,
      mixcol_comp2 a4 a5 a6 a7 h4 h5 h6 h7, mixcol_comp3 a4 a5 a6 a7 h4 h5 h6 h7,
      mixcol_comp0 a8 a9 a10 a11 h8 h9 h10 h11, mixcol_comp1 a8 a9 a10 a11 h8 h9 h10 h11,
      mixcol_comp2 a8 a9 a10 a11 h8 h9 h10 h11, mixcol_comp3 a8 a9 a10 a11 h8 h9 h10 h11,
      mixcol_comp0 a12 a13 a14 a15 h12 h13 h14 h15, mixcol_comp1 a12 a13 a14 a15 h12 h13 h14 h15,
      mixcol_comp2 a12 a13 a14 a15 h12 h13 h14 h15, mixcol_comp3 a12 a13 a14 a15 h12 h13 h14 h15⟩

theorem xtime_lt (x : Nat) : xtime x < 256 := by
  unfold xtime
  split <;> rw [and_255] <;> exact Nat.mod_lt _ (by norm_num)

theorem gm2_lt (x : Nat) : gm2 x < 256 := xtime_lt x

theorem gm8_lt (x : Nat) : gm8 x < 256 := xtime_lt _

theorem gm14_lt (x : Nat) : gm14 x < 256 :=
  xor_lt_256 (xor_lt_256 (xtime_lt _) (xtime_lt _)) (xtime_lt _)

theorem gm9_lt (x : Nat) (h : x < 256) : gm9 x < 256 := xor_lt_256 (gm8_lt x) h

theorem gm11_lt (x : Nat) (h : x < 256) : gm11 x < 256 :=
  xor_lt_256 (xor_lt_256 (gm8_lt x) (gm2_lt x)) h

theorem gm13_lt (x : Nat) (h : x < 256) : gm13 x < 256 :=
  xor_lt_256 (xor_lt_256 (gm8_lt x) (xtime_lt _)) h

theorem isub1_lt (x : Nat) : isub1 x < 256 := by
  rcases Nat.lt_or_ge x 256 with h | h
  · exact (by decide : ∀ y < 256, isub1 y < 256) x h
  · unfold isub1
    rw [List.getD_eq_default _ _ (by rw [(by rfl : invSbox.length = 256)]; omega)]
    norm_num

theorem sbox_inv_id : ∀ x < 256, sub1 (isub1 x) = x := by decide

theorem invMixCol_piece_lt (a b c d : Nat) (ha : a < 256) (hb : b < 256)
    (hc : c < 256) (hd : d < 256) :
    gm14 a ^^^ gm11 b ^^^ gm13 c ^^^ gm9 d < 256 :=
  xor_lt_256 (xor_lt_256 (xor_lt_256 (gm14_lt a) (gm11_lt b hb)) (gm13_lt c hc))
    (gm9_lt d hd)

theorem ok_addRoundKey (k t : B16) (hk : B16ok k) (ht : B16ok t) :
    B16ok (addRoundKey k t) := by
  obtain ⟨k0, k1, k2, k3, k4, k5, k6, k7, k8, k9, k10, k11, k12, k13, k14, k15⟩ := hk
  obtain ⟨t0, t1, t2, t3, t4, t5, t6, t7, t8, t9, t10, t11, t12, t13, t14, t15⟩ := ht
  exact ⟨xor_lt_256 t0 k0, xor_lt_256 t1 k1, xor_lt_256 t2 k2, xor_lt_256 t3 k3,
    xor_lt_256 t4 k4, xor_lt_256 t5 k5, xor_lt_256 t6 k6, xor_lt_256 t7 k7,
    xor_lt_256 t8 k8, xor_lt_256 t9 k9, xor_lt_256 t10 k10, xor_lt_256 t11 k11,
    xor_lt_256 t12 k12, xor_lt_256 t13 k13, xor_lt_256 t14 k14, xor_lt_256 t15 k15⟩

theorem ok_invShiftRows (t : B16) (ht : B16ok t) : B16ok (invShiftRows t) := by
  obtain ⟨h0, h1, h2, h3, h4, h5, h6, h7, h8, h9, h10, h11, h12, h13, h14, h15⟩ := ht
  exact ⟨h0, h13, h10, h7, h4, h1, h14, h11, h8, h5, h2, h15, h12, h9, h6, h3⟩

theorem ok_invSubBytes (t : B16) : B16ok (invSubBytes t) :=
  ⟨isub1_lt _, isub1_lt _, isub1_lt _, isub1_lt _, isub1_lt _, isub1_lt _,
   isub1_lt _, isub1_lt _, isub1_lt _, isub1_lt _, isub1_lt _, isub1_lt _,
   isub1_lt _, isub1_lt _, isub1_lt _, isub1_lt _⟩

theorem invMixCol_ok (a b c d : Nat) (ha : a < 256) (hb : b < 256)
    (hc : c < 256) (hd : d < 256) :
    (gm14 a ^^^ gm11 b ^^^ gm13 c ^^^ gm9 d < 256) ∧
    (gm9 a ^^^ gm14 b ^^^ gm11 c ^^^ gm13 d < 256) ∧
    (gm13 a ^^^ gm9 b ^^^ gm14 c ^^^ gm11 d < 256) ∧
    (gm11 a ^^^ gm13 b ^^^ gm9 c ^^^ gm14 d < 256) :=
  ⟨xor_lt_256 (xor_lt_256 (xor_lt_256 (gm14_lt a) (gm11_lt b hb)) (gm13_lt c hc))
      (gm9_lt d hd),
   xor_lt_256 (xor_lt_256 (xor_lt_256 (gm9_lt a ha) (gm14_lt b)) (gm11_lt c hc))
      (gm13_lt d hd),
   xor_lt_256 (xor_lt_256 (xor_lt_256 (gm13_lt a ha) (gm9_lt b hb)) (gm14_lt c))
      (gm11_lt d hd),
   xor_lt_256 (xor_lt_256 (xor_lt_256 (gm11_lt a ha) (gm13_lt b hb)) (gm9_lt c hc))
      (gm14_lt d)⟩

theorem ok_invMixColumns (t : B16) (ht : B16ok t) : B16ok (invMixColumns t) := by
  cases t with
  | mk a0 a1 a2 a3 a4 a5 a6 a7 a8 a9 a10 a11 a12 a13 a14 a15 =>
    simp only [B16ok] at ht
    obtain ⟨h0, h1, h2, h3, h4, h5, h6, h7, h8, h9, h10, h11, h12, h13, h14, h15⟩ := ht
    obtain ⟨p0, p1, p2, p3⟩ := invMixCol_ok a0 a1 a2 a3 h0 h1 h2 h3
    obtain ⟨q0, q1, q2, q3⟩ := invMixCol_ok a4 a5 a6 a7 h4 h5 h6 h7
    obtain ⟨r0, r1, r2, r3⟩ := invMixCol_ok a8 a9 a10 a11 h8 h9 h10 h11
    obtain ⟨s0, s1, s2, s3⟩ := invMixCol_ok a12 a13 a14 a15 h12 h13 h14 h15
    exact ⟨p0, p1, p2, p3, q0, q1, q2, q3, r0, r1, r2, r3, s0, s1, s2, s3⟩

theorem subBytes_invSubBytes (t : B16) (ht : B16ok t) :
    subBytes (invSubBytes t) = t := by
  cases t with
  | mk a0 a1 a2 a3 a4 a5 a6 a7 a8 a9 a10 a11 a12 a13 a14 a15 =>
    simp only [B16ok] at ht
    obtain ⟨h0, h1, h2, h3, h4, h5, h6, h7, h8, h9, h10, h11, h12, h13, h14, h15⟩ := ht
    simp only [subBytes, invSubBytes, B16.mk.injEq]
    exact ⟨sbox_inv_id _ h0, sbox_inv_id _ h1, sbox_inv_id _ h2, sbox_inv_id _ h3,
      sbox_inv_id _ h4, sbox_inv_id _ h5, sbox_inv_id _ h6, sbox_inv_id _ h7,
      sbox_inv_id _ h8, sbox_inv_id _ h9, sbox_inv_id _ h10, sbox_inv_id _ h11,
      sbox_inv_id _ h12, sbox_inv_id _ h13, sbox_inv_id _ h14, sbox_inv_id _ h15⟩

theorem shiftRows_invShiftRows (t : B16) : shiftRows (invShiftRows t) = t := rfl

theorem addRoundKey_cancel (k t : B16) : addRoundKey k (addRoundKey k t) = t := by
  cases t
  simp [addRoundKey, Nat.xor_cancel_right]

theorem round_cancel (k t : B16) (hk : B16ok k) (ht : B16ok t) :
    encRound (decRound k t) k = t := by
  unfold encRound decRound
  rw [subBytes_invSubBytes _
    (ok_invShiftRows _ (ok_invMixColumns _ (ok_addRoundKey k t hk ht)))]
  rw [shiftRows_invShiftRows]
  rw [mixColumns_invMixColumns _ (ok_addRoundKey k t hk ht)]
  rw [addRoundKey_cancel]

theorem ok_foldr_decRound (ks : List B16) (x : B16) (hx : B16ok x) :
    B16ok (ks.foldr decRound x) := by
  cases ks with
  | nil => exact hx
  | cons k ks => exact ok_invSubBytes _

theorem rounds_cancel (ks : List B16) (x : B16) (hks : ∀ k ∈ ks, B16ok k)
    (hx : B16ok x) : ks.foldl encRound (ks.foldr decRound x) = x := by
  induction ks with
  | nil => rfl
  | cons k ks ih =>
    rw [List.foldr_cons, List.foldl_cons]
    rw [round_cancel k _ (hks k (by simp)) (ok_foldr_decRound ks x hx)]
    exact ih (fun k2 hk2 => hks k2 (by simp [hk2]))

theorem midKeys_ok : ∀ k ∈ midKeys, B16ok k := by decide

theorem rk10_ok : B16ok (rk 10) := by decide

/-- One AES block encrypts back to itself after decryption. -/
theorem aes_enc_dec (s : B16) (hs : B16ok s) :
    aesEncryptB (aesDecryptB s) = s := by
  unfold aesEncryptB aesDecryptB
  rw [addRoundKey_cancel]
  rw [rounds_cancel midKeys _ midKeys_ok (ok_invSubBytes _)]
  rw [subBytes_invSubBytes _ (ok_invShiftRows _ (ok_addRoundKey _ _ rk10_ok hs))]
  rw [shiftRows_invShiftRows, addRoundKey_cancel]

theorem b16OfList_listOfB16 (s : B16) : b16OfList (listOfB16 s) = s := rfl

theorem take_append_16 (l1 l2 : List Nat) (h : l1.length = 16) :
    (l1 ++ l2).take 16 = l1 := by
  rw [← h]
  exact List.take_left l1 l2

theorem drop_append_16 (l1 l2 : List Nat) (h : l1.length = 16) :
    (l1 ++ l2).drop 16 = l2 := by
  rw [← h]
  exact List.drop_left l1 l2

theorem listOfB16_b16OfList (l : List Nat) (h : l.length = 16) :
    listOfB16 (b16OfList l) = l := by
  have hg : ∀ (j : Nat) (hj : j < l.length), l.getD j 0 = l.get ⟨j, hj⟩ := by
    intro j hj
    rw [List.getD_eq_getElem?_getD, List.getElem?_eq_getElem hj]
    rfl
  apply List.ext_getElem (by simp [listOfB16, h])
  intro i h1 h2
  have h16 : i < 16 := by simpa [listOfB16] using h1
  simp only [listOfB16, b16OfList]
  interval_cases i <;> simp [List.getElem?_eq_getElem h2]

theorem b16OfList_ok (l : List Nat) (h : ∀ b ∈ l, b < 256) : B16ok (b16OfList l) := by
  have hg : ∀ i, l.getD i 0 < 256 := by
    intro i
    rcases Nat.lt_or_ge i l.length with hi | hi
    · exact h _ (getD_mem_of_lt l i hi)
    · rw [List.getD_eq_default _ _ hi]; norm_num
  exact ⟨hg 0, hg 1, hg 2, hg 3, hg 4, hg 5, hg 6, hg 7,
    hg 8, hg 9, hg 10, hg 11, hg 12, hg 13, hg 14, hg 15⟩

theorem processBlocks_cons16 (f : List Nat → List Nat) (l1 l2 : List Nat)
    (h : l1.length = 16) :
    processBlocks f (l1 ++ l2) = f l1 ++ processBlocks f l2 := by
  rw [processBlocks, dif_pos (by simp [h])]
  congr 2
  · rw [← h, List.take_left]
  · rw [← h, List.drop_left]

theorem processBlocks_roundtrip_aux :
    ∀ (n : Nat) (data : List Nat), data.length ≤ n → (∀ b ∈ data, b < 256) →
      processBlocks (fun b => listOfB16 (aesEncryptB (b16OfList b)))
        (processBlocks (fun b => listOfB16 (aesDecryptB (b16OfList b))) data) = data := by
  intro n
  induction n with
  | zero =>
    intro data h hb
    have e : processBlocks (fun b => listOfB16 (aesDecryptB (b16OfList b))) data = data := by
      rw [processBlocks, dif_neg (by omega)]
    rw [e, processBlocks, dif_neg (by omega)]
  | succ n ih =>
    intro data h hb
    by_cases h16 : 16 ≤ data.length
    · have e1 : processBlocks (fun b => listOfB16 (aesDecryptB (b16OfList b))) data =
          listOfB16 (aesDecryptB (b16OfList (data.take 16))) ++
            processBlocks (fun b => listOfB16 (aesDecryptB (b16OfList b))) (data.drop 16) := by
        conv_lhs => rw [← List.take_append_drop 16 data]
        exact processBlocks_cons16 _ _ _ (by simp; omega)
      rw [e1, processBlocks_cons16 _ _ _ (listOfB16_length _)]
      rw [ih (data.drop 16) (by simp; omega) (fun b hbm => hb b (List.drop_subset _ _ hbm))]
      have hblock : listOfB16 (aesEncryptB (b16OfList
          (listOfB16 (aesDecryptB (b16OfList (data.take 16)))))) = data.take 16 := by
        rw [b16OfList_listOfB16]
        rw [aes_enc_dec _ (b16OfList_ok _ (fun b hbm => hb b (List.take_subset _ _ hbm)))]
        exact listOfB16_b16OfList _ (by simp; omega)
      rw [hblock, List.take_append_drop]
    · have e : processBlocks (fun b => listOfB16 (aesDecryptB (b16OfList b))) data = data := by
        rw [processBlocks, dif_neg h16]
      rw [e, processBlocks, dif_neg h16]

theorem processBlocks_tail (f : List Nat → List Nat)
    (hf : ∀ l : List Nat, l.length = 16 → (f l).length = 16) :
    ∀ (n : Nat) (data : List Nat), data.length ≤ n →
      (processBlocks f data).drop (16 * (data.length / 16)) =
        data.drop (16 * (data.length / 16)) := by
  intro n
  induction n with
  | zero =>
    intro data h
    rw [processBlocks, dif_neg (by omega)]
  | succ n ih =>
    intro data h
    by_cases h16 : 16 ≤ data.length
    · have e1 : processBlocks f data =
          f (data.take 16) ++ processBlocks f (data.drop 16) := by
        conv_lhs => rw [← List.take_append_drop 16 data]
        exact processBlocks_cons16 _ _ _ (by simp; omega)
      have hq : 16 * (data.length / 16) = 16 + 16 * ((data.length - 16) / 16) := by
        omega
      have hlen1 : (f (data.take 16)).length = 16 := hf _ (by simp; omega)
      rw [e1, hq]
      have hd1 : (f (data.take 16) ++ processBlocks f (data.drop 16)).drop
          (16 + 16 * ((data.length - 16) / 16)) =
          (processBlocks f (data.drop 16)).drop (16 * ((data.length - 16) / 16)) := by
        rw [← List.drop_drop, drop_append_16 _ _ hlen1]
      have hd2 : data.drop (16 + 16 * ((data.length - 16) / 16)) =
          (data.drop 16).drop (16 * ((data.length - 16) / 16)) := by
        rw [List.drop_drop]
      rw [hd1, hd2]
      have := ih (data.drop 16) (by simp; omega)
      rw [List.length_drop] at this
      exact this
    · rw [processBlocks, dif_neg h16]

theorem processBlocks_block (f : List Nat → List Nat)
    (hf : ∀ l : List Nat, l.length = 16 → (f l).length = 16) :
    ∀ (i : Nat) (data : List Nat), 16 * i + 16 ≤ data.length →
      ((processBlocks f data).drop (16 * i)).take 16 =
        f ((data.drop (16 * i)).take 16) := by
  intro i
  induction i with
  | zero =>
    intro data hlen
    have e1 : processBlocks f data =
        f (data.take 16) ++ processBlocks f (data.drop 16) := by
      conv_lhs => rw [← List.take_append_drop 16 data]
      exact processBlocks_cons16 _ _ _ (by simp; omega)
    rw [e1]
    simp only [Nat.mul_zero, List.drop_zero]
    have hlen1 : (f (data.take 16)).length = 16 := hf _ (by simp; omega)
    rw [take_append_16 _ _ hlen1]
  | succ i ih =>
    intro data hlen
    have e1 : processBlocks f data =
        f (data.take 16) ++ processBlocks f (data.drop 16) := by
      conv_lhs => rw [← List.take_append_drop 16 data]
      exact processBlocks_cons16 _ _ _ (by simp; omega)
    rw [e1]
    have hlen1 : (f (data.take 16)).length = 16 := hf _ (by simp; omega)
    have hq : 16 * (i + 1) = 16 + 16 * i := by ring
    rw [hq]
    have hd1 : (f (data.take 16) ++ processBlocks f (data.drop 16)).drop (16 + 16 * i) =
        (processBlocks f (data.drop 16)).drop (16 * i) := by
      rw [← List.drop_drop, drop_append_16 _ _ hlen1]
    have hd2 : data.drop (16 + 16 * i) = (data.drop 16).drop (16 * i) := by
      rw [List.drop_drop]
    rw [hd1, hd2]
    exact ih (data.drop 16) (by simp; omega)

/-- C7 counterexample: for a buffer of length `2147483633` (allocatable on
every Node, the cap being at least `2^31 - 1`) the loop bound
`data.length + 15 >> 4` wraps negative through `ToInt32`, the loop never
runs, and both functions return the all-zero `Buffer.alloc` result: no
block is processed, no tail is copied, and the decrypt/encrypt round trip
does not restore the input. -/
theorem c7_aes_wrap_counterexample :
    aesRounds 2147483633 = -134217728 ∧
    GTACrypto.decryptAES (List.replicate 2147483633 7) =
      List.replicate 2147483633 0 ∧
    GTACrypto.encryptAES (List.replicate 2147483633 7) =
      List.replicate 2147483633 0 ∧
    GTACrypto.encryptAES (GTACrypto.decryptAES (List.replicate 2147483633 7)) ≠
      List.replicate 2147483633 7 := by
  have hlen : (List.replicate 2147483633 (7 : Nat)).length = 2147483633 := by
    rw [List.length_replicate]
  have hzlen : (List.replicate 2147483633 (0 : Nat)).length = 2147483633 := by
    rw [List.length_replicate]
  have hiter : aesIters 2147483633 = 0 := by decide
  have hd : GTACrypto.decryptAES (List.replicate 2147483633 7) =
      List.replicate 2147483633 0 := by
    rw [GTACrypto.decryptAES, hlen, hiter, blockLoop_zero, hlen]
  have he : GTACrypto.encryptAES (List.replicate 2147483633 0) =
      List.replicate 2147483633 0 := by
    rw [GTACrypto.encryptAES, hzlen, hiter, blockLoop_zero, hzlen]
  have he7 : GTACrypto.encryptAES (List.replicate 2147483633 7) =
      List.replicate 2147483633 0 := by
    rw [GTACrypto.encryptAES, hlen, hiter, blockLoop_zero, hlen]
  refine ⟨by decide, hd, he7, ?ne⟩
  rw [hd, he]
  intro h
  have h0 : (List.replicate 2147483633 (0 : Nat)).getD 0 0 =
      (List.replicate 2147483633 (7 : Nat)).getD 0 0 := by rw [h]
  exact absurd h0 (by decide)

/-- C7 amended: below the JavaScript Int32 wrap — whenever
`data.length + 15 < 2^31` — `decryptAES`/`encryptAES` are total,
length-preserving, process each of the `floor(len/16)` full 16-byte
blocks with the AES-128 block cipher in ECB mode under the compiled-in
key, copy the trailing `len mod 16` bytes unchanged, and
`encryptAES (decryptAES buf) = buf`, including lengths not divisible
by 16.  (Length preservation holds for every length; for
`data.length ≥ 2147483633` the loop bound wraps negative and both
functions return an all-zero buffer instead.) -/
theorem c7_aes_primitive_amended (data : List Nat) (hdata : ∀ b ∈ data, b < 256)
    (hlen : data.length + 15 < 2147483648) :
    (GTACrypto.decryptAES data).length = data.length ∧
    (GTACrypto.encryptAES data).length = data.length ∧
    (GTACrypto.decryptAES data).drop (16 * (data.length / 16)) =
      data.drop (16 * (data.length / 16)) ∧
    (GTACrypto.encryptAES data).drop (16 * (data.length / 16)) =
      data.drop (16 * (data.length / 16)) ∧
    (∀ i, 16 * i + 16 ≤ data.length →
      ((GTACrypto.decryptAES data).drop (16 * i)).take 16 =
        listOfB16 (aesDecryptB (b16OfList ((data.drop (16 * i)).take 16))) ∧
      ((GTACrypto.encryptAES data).drop (16 * i)).take 16 =
        listOfB16 (aesEncryptB (b16OfList ((data.drop (16 * i)).take 16)))) ∧
    GTACrypto.encryptAES (GTACrypto.decryptAES data) = data := by
  have hround : GTACrypto.encryptAES (GTACrypto.decryptAES data) = data := by
    rw [encryptAES_eq_processBlocks _ (by rw [decryptAES_length]; exact hlen),
      decryptAES_eq_processBlocks data hlen]
    exact processBlocks_roundtrip_aux data.length data le_rfl hdata
  refine ⟨decryptAES_length data, encryptAES_length data, ?_, ?_, ?_, hround⟩
  · rw [decryptAES_eq_processBlocks data hlen]
    exact processBlocks_tail _ (fun l _ => listOfB16_length _) data.length data le_rfl
  · rw [encryptAES_eq_processBlocks data hlen]
    exact processBlocks_tail _ (fun l _ => listOfB16_length _) data.length data le_rfl
  · intro i hi
    rw [decryptAES_eq_processBlocks data hlen, encryptAES_eq_processBlocks data hlen]
    exact ⟨processBlocks_block _ (fun l _ => listOfB16_length _) i data hi,
      processBlocks_block _ (fun l _ => listOfB16_length _) i data hi⟩

/-- C7 amended, witness at a 5-byte buffer (an unaligned tail, far below
the Int32 wrap). -/
theorem c7_aes_primitive_amended_witness :
    (GTACrypto.decryptAES [72, 69, 76, 76, 79]).length =
      ([72, 69, 76, 76, 79] : List Nat).length ∧
    (GTACrypto.encryptAES [72, 69, 76, 76, 79]).length =
      ([72, 69, 76, 76, 79] : List Nat).length ∧
    (GTACrypto.decryptAES [72, 69, 76, 76, 79]).drop
        (16 * (([72, 69, 76, 76, 79] : List Nat).length / 16)) =
      ([72, 69, 76, 76, 79] : List Nat).drop
        (16 * (([72, 69, 76, 76, 79] : List Nat).length / 16)) ∧
    (GTACrypto.encryptAES [72, 69, 76, 76, 79]).drop
        (16 * (([72, 69, 76, 76, 79] : List Nat).length / 16)) =
      ([72, 69, 76, 76, 79] : List Nat).drop
        (16 * (([72, 69, 76, 76, 79] : List Nat).length / 16)) ∧
    (∀ i, 16 * i + 16 ≤ ([72, 69, 76, 76, 79] : List Nat).length →
      ((GTACrypto.decryptAES [72, 69, 76, 76, 79]).drop (16 * i)).take 16 =
        listOfB16 (aesDecryptB (b16OfList
          ((([72, 69, 76, 76, 79] : List Nat).drop (16 * i)).take 16))) ∧
      ((GTACrypto.encryptAES [72, 69, 76, 76, 79]).drop (16 * i)).take 16 =
        listOfB16 (aesEncryptB (b16OfList
          ((([72, 69, 76, 76, 79] : List Nat).drop (16 * i)).take 16)))) ∧
    GTACrypto.encryptAES (GTACrypto.decryptAES [72, 69, 76, 76, 79]) =
      [72, 69, 76, 76, 79] :=
  c7_aes_primitive_amended [72, 69, 76, 76, 79] (by decide) (by decide)

theorem scanStructure_succ (file : List Nat) (fuel startPos : Nat) (fileName : List Nat) :
    scanStructure file (fuel+1) startPos fileName =
      scanOpen file (fun s n => scanStructure file fuel s n) startPos fileName := rfl

theorem parseEntriesAux_zero (ed nd : List Nat) (i : Nat) :
    parseEntriesAux ed nd i 0 = .ok [] := rfl

theorem parseEntriesAux_succ (ed nd : List Nat) (i c : Nat) :
    parseEntriesAux ed nd i (c+1) =
      (match parseEntry ed nd i with
       | .error e => .error e
       | .ok e =>
         match parseEntriesAux ed nd (i+1) c with
         | .error err => .error err
         | .ok rest => .ok (e :: rest)) := rfl

theorem parseEntriesAux_ok_length (ed nd : List Nat) :
    ∀ (c i : Nat) (es : List ParsedEntry),
      parseEntriesAux ed nd i c = .ok es → es.length = c := by
  intro c
  induction c with
  | zero =>
    intro i es h
    rw [parseEntriesAux_zero] at h
    cases h
    rfl
  | succ c ih =>
    intro i es h
    rw [parseEntriesAux_succ] at h
    cases hp : parseEntry ed nd i with
    | error e => rw [hp] at h; cases h
    | ok e =>
      rw [hp] at h
      cases hr : parseEntriesAux ed nd (i+1) c with
      | error err => rw [hr] at h; cases h
      | ok rest =>
        rw [hr] at h
        cases h
        simp [ih (i+1) rest hr]

theorem scanOpen_ok_inversion (file : List Nat)
    (oc : Nat → List Nat → Except RpfError RpfArchive) (startPos : Nat)
    (fileName : List Nat) (arch : RpfArchive)
    (h : scanOpen file oc startPos fileName = .ok arch) :
    arch.startPos = startPos ∧ arch.fileName = fileName ∧
    arch.version = 0x52504637 ∧
    arch.entryCount = getUint32 (readSyncFill file startPos 16) 4 ∧
    arch.entries.length = arch.entryCount ∧
    hierarchyOK arch.entries = true ∧
    updatePathsOK arch.entries arch.rootIdx = true ∧
    arch.rootIdx = (if isDirAt arch.entries 0 then some 0 else none) ∧
    arch.children = scanNestedWith oc arch.entries arch.rootIdx := by
  simp only [scanOpen] at h
  by_cases hver : getUint32 (readSyncFill file startPos 16) 0 ≠ 0x52504637
  · rw [if_pos hver] at h
    cases h
  · rw [if_neg hver] at h
    split at h
    · cases h
    · next es heq =>
      by_cases hh : hierarchyOK es = true
      · rw [if_pos hh] at h
        by_cases hu : updatePathsOK es (if isDirAt es 0 then some 0 else none) = true
        · rw [if_pos hu] at h
          cases h
          rw [not_ne_iff] at hver
          exact ⟨rfl, rfl, hver, rfl, parseEntriesAux_ok_length _ _ _ _ _ heq,
            hh, hu, rfl, rfl⟩
        · rw [if_neg hu] at h
          cases h
      · rw [if_neg hh] at h
        cases h

theorem foldl_parent_skip (entries : List ParsedEntry) (j : Nat) :
    ∀ (l : List Nat) (acc : Option Nat), (∀ i ∈ l, dirContains entries i j = false) →
      l.foldl (fun a i => if dirContains entries i j then some i else a) acc = acc := by
  intro l
  induction l with
  | nil => intro acc h; rfl
  | cons x xs ih =>
    intro acc h
    rw [List.foldl_cons, if_neg (by rw [h x (by simp)]; simp)]
    exact ih acc (fun i hi => h i (by simp [hi]))

/-- `buildHierarchy` assigns entry `j` the parent `d` when `d` is the last
directory (in array order) whose child range contains `j`. -/
theorem parentIndex_last (entries : List ParsedEntry) (j d : Nat)
    (hd : d < entries.length)
    (hdc : dirContains entries d j = true)
    (hlast : ∀ e, d < e → e < entries.length → dirContains entries e j = false) :
    parentIndex entries j = some d := by
  unfold parentIndex
  rw [show entries.length = (d + 1) + (entries.length - d - 1) by omega]
  rw [List.range_add, List.foldl_append, List.range_succ, List.foldl_append]
  rw [foldl_parent_skip entries j _ _ ?later]
  case later =>
    intro i hi
    rw [List.mem_map] at hi
    obtain ⟨k, hk, rfl⟩ := hi
    rw [List.mem_range] at hk
    exact hlast _ (by omega) (by omega)
  simp only [List.foldl_cons, List.foldl_nil]
  rw [if_pos hdc]

/-- C2 amended: in every successfully opened archive every directory's
nonempty child range lies within `[0, entry_count)` and the entry array
has exactly `entry_count` entries; ranges of distinct directories may
overlap, and an entry in a directory's range has that directory as its
parent exactly when no later directory's range also contains it (the
last assignment wins). -/
theorem c2_directory_ranges_amended (file : List Nat) (fuel startPos : Nat)
    (fileName : List Nat) (arch : RpfArchive)
    (h : scanStructure file fuel startPos fileName = .ok arch) :
    hierarchyOK arch.entries = true ∧
    arch.entries.length = arch.entryCount ∧
    (∀ j d, d < arch.entries.length → dirContains arch.entries d j = true →
      (∀ e, d < e → e < arch.entries.length → dirContains arch.entries e j = false) →
      parentIndex arch.entries j = some d) := by
  cases fuel with
  | zero => cases h
  | succ fuel =>
    rw [scanStructure_succ] at h
    obtain ⟨_, _, _, _, hlen, hok, _, _, _⟩ := scanOpen_ok_inversion _ _ _ _ _ h
    exact ⟨hok, hlen, fun j d hd hdc hlast => parentIndex_last _ j d hd hdc hlast⟩

/-- C2 amended, witness at the empty archive. -/
theorem c2_directory_ranges_amended_witness :
    hierarchyOK emptyArch.entries = true ∧
    emptyArch.entries.length = emptyArch.entryCount ∧
    (∀ j d, d < emptyArch.entries.length →
      dirContains emptyArch.entries d j = true →
      (∀ e, d < e → e < emptyArch.entries.length →
        dirContains emptyArch.entries e j = false) →
      parentIndex emptyArch.entries j = some d) :=
  c2_directory_ranges_amended emptyFile 1 0 [] emptyArch rfl

theorem getD_replicate_zero : ∀ (n j : Nat), (List.replicate n (0 : Nat)).getD j 0 = 0 := by
  intro n
  induction n with
  | zero => intro j; rfl
  | succ n ih =>
    intro j
    cases j with
    | zero => rfl
    | succ j => exact ih j

theorem get?_replicate_of_lt {α : Type} (a : α) :
    ∀ (n k : Nat), k < n → (List.replicate n a).get? k = some a := by
  intro n
  induction n with
  | zero => intro k hk; omega
  | succ n ih =>
    intro k hk
    cases k with
    | zero => rfl
    | succ k => exact ih k (by omega)

theorem all_replicate_of {α : Type} (n : Nat) (a : α) (f : α → Bool)
    (h : f a = true) : (List.replicate n a).all f = true := by
  induction n with
  | zero => rfl
  | succ n ih => simp [List.replicate_succ, List.all_cons, h, ih]

theorem filter_replicate_false {α : Type} (n : Nat) (a : α) (f : α → Bool)
    (h : f a = false) : (List.replicate n a).filter f = [] := by
  induction n with
  | zero => rfl
  | succ n ih => simp [List.replicate_succ, List.filter_cons, h, ih]

/-- `readEntryRecord` only reads the 16 bytes of its record. -/
theorem readEntryRecord_congr (data : List Nat) (off : Nat) (bs : List Nat)
    (h : ∀ j, j < 16 → data.getD (off + j) 0 = bs.getD j 0) :
    readEntryRecord data off = readEntryRecord bs 0 := by
  have g32 : ∀ t, t + 3 < 16 → getUint32 data (off + t) = getUint32 bs t := by
    intro t ht
    unfold getUint32
    rw [show off + t + 1 = off + (t+1) by ring, show off + t + 2 = off + (t+2) by ring,
      show off + t + 3 = off + (t+3) by ring]
    rw [h t (by omega), h (t+1) (by omega), h (t+2) (by omega), h (t+3) (by omega)]
  have e0 : getUint32 data off = getUint32 bs 0 := by
    have := g32 0 (by omega)
    simpa using this
  have e4 : getUint32 data (off+4) = getUint32 bs 4 := g32 4 (by omega)
  have e8 : getUint32 data (off+8) = getUint32 bs 8 := g32 8 (by omega)
  have e12 : getUint32 data (off+12) = getUint32 bs 12 := g32 12 (by omega)
  have f0 : getUint64 data off = getUint64 bs 0 := by
    unfold getUint64
    rw [e0, e4]
  have f8 : getUint64 data (off+8) = getUint64 bs 8 := by
    unfold getUint64
    rw [e8, show off + 8 + 4 = off + 12 by ring, e12]
  unfold readEntryRecord RpfDirectoryEntry.read RpfBinaryFileEntry.read
    RpfResourceFileEntry.read
  simp only [Nat.zero_add]
  rw [e0, e4, e8, e12, f0, f8]

theorem overlap_record0 :
    readEntryRecord (readSyncFill overlapFile 16 34359734304) 0 =
      .ok (.dir ⟨0, 2, 0x7FFFFF00⟩) := by
  rw [readEntryRecord_congr _ 0 [0,0,0,0, 2,0,0,0, 0,255,255,127, 0,255,255,127] ?h]
  · rfl
  case h =>
    intro j hj
    rw [Nat.zero_add, readSyncFill_getD, if_pos (by omega)]
    interval_cases j <;> rfl

theorem overlap_record1 :
    readEntryRecord (readSyncFill overlapFile 16 34359734304) 16 =
      .ok (.dir ⟨0, 2, 0x7FFFFF00⟩) := by
  rw [readEntryRecord_congr _ 16 [0,0,0,0, 2,0,0,0, 0,255,255,127, 0,255,255,127] ?h]
  · rfl
  case h =>
    intro j hj
    rw [readSyncFill_getD, if_pos (by omega)]
    interval_cases j <;> rfl

theorem overlap_record_zero (i : Nat) (h2 : 2 ≤ i) (hN : i < 2147483394) :
    readEntryRecord (readSyncFill overlapFile 16 34359734304) (i * 16) =
      .ok (.bin ⟨0, 0, 0, 0, 0⟩) := by
  rw [readEntryRecord_congr _ (i * 16) (List.replicate 16 0) ?h]
  · rfl
  case h =>
    intro j hj
    rw [getD_replicate_zero, readSyncFill_getD, if_pos (by omega)]
    apply List.getD_eq_default
    rw [(by rfl : overlapFile.length = 48)]
    omega

theorem overlap_parseEntry0 :
    parseEntry (readSyncFill overlapFile 16 34359734304) [0] 0 = .ok overlapDir := by
  unfold parseEntry
  rw [show (0 * 16 : Nat) = 0 by norm_num, overlap_record0]
  rfl

theorem overlap_parseEntry1 :
    parseEntry (readSyncFill overlapFile 16 34359734304) [0] 1 = .ok overlapDir := by
  unfold parseEntry
  rw [show (1 * 16 : Nat) = 16 by norm_num, overlap_record1]
  rfl

theorem overlap_parseEntry_zero (k : Nat) (h2 : 2 ≤ k) (hN : k < 2147483394) :
    parseEntry (readSyncFill overlapFile 16 34359734304) [0] k = .ok zeroBinEntry := by
  unfold parseEntry
  rw [overlap_record_zero k h2 hN]
  rfl

theorem parseEntriesAux_const (ed nd : List Nat) (z : ParsedEntry) :
    ∀ (c i : Nat), (∀ k, i ≤ k → k < i + c → parseEntry ed nd k = .ok z) →
      parseEntriesAux ed nd i c = .ok (List.replicate c z) := by
  intro c
  induction c with
  | zero => intro i h; rfl
  | succ c ih =>
    intro i h
    rw [parseEntriesAux_succ, h i le_rfl (by omega),
      ih (i+1) (fun k hk1 hk2 => h k (by omega) (by omega))]
    rfl

theorem overlap_parse :
    parseEntries (readSyncFill overlapFile 16 34359734304) [0] 2147483394 =
      .ok overlapEntries := by
  unfold parseEntries
  have hTail : parseEntriesAux (readSyncFill overlapFile 16 34359734304) [0] 2
      2147483392 = .ok (List.replicate 2147483392 zeroBinEntry) :=
    parseEntriesAux_const _ _ _ 2147483392 2
      (fun k hk1 hk2 => overlap_parseEntry_zero k hk1 (by omega))
  have h1 : parseEntriesAux (readSyncFill overlapFile 16 34359734304) [0] 1
      2147483393 = .ok (overlapDir :: List.replicate 2147483392 zeroBinEntry) := by
    rw [show (2147483393 : Nat) = 2147483392 + 1 by norm_num, parseEntriesAux_succ,
      overlap_parseEntry1, show (1 + 1 : Nat) = 2 by norm_num, hTail]
  rw [show (2147483394 : Nat) = 2147483393 + 1 by norm_num, parseEntriesAux_succ,
    overlap_parseEntry0, show (0 + 1 : Nat) = 1 by norm_num, h1]
  rfl

theorem walkOK_succ (entries : List ParsedEntry) (fuel d : Nat) :
    walkOK entries (fuel+1) d =
      match dirAt entries d with
      | some dr => (subdirIndices entries dr).all (walkOK entries fuel)
      | none => true := rfl

theorem findRpfIndices_succ (entries : List ParsedEntry) (fuel d : Nat) :
    findRpfIndices entries (fuel+1) d =
      match dirAt entries d with
      | some dr =>
        (fileIndices entries dr).filter
            (fun j => endsWithDotRpf (nameLowerAt entries j)) ++
          (subdirIndices entries dr).flatMap (findRpfIndices entries fuel)
      | none => [] := rfl

theorem overlap_len : overlapEntries.length = 2147483394 := by
  rw [overlapEntries, List.length_cons, List.length_cons, List.length_replicate]

theorem overlap_get_hi (k : Nat) (hk : k < 2147483392) :
    overlapEntries.get? (2 + k) = some zeroBinEntry := by
  rw [overlapEntries, show 2 + k = k + 1 + 1 from by omega]
  show (List.replicate 2147483392 zeroBinEntry).get? k = some zeroBinEntry
  exact get?_replicate_of_lt zeroBinEntry _ k hk

theorem overlap_isDirAt_hi (k : Nat) (hk : k < 2147483392) :
    isDirAt overlapEntries (2 + k) = false := by
  unfold isDirAt
  rw [overlap_get_hi k hk]
  rfl

theorem overlap_nameLower_hi (k : Nat) (hk : k < 2147483392) :
    nameLowerAt overlapEntries (2 + k) = [] := by
  unfold nameLowerAt
  rw [overlap_get_hi k hk]
  rfl

theorem overlap_dirContains_hi (e : Nat) (h2 : 2 ≤ e) (hlt : e < 2147483394) :
    dirContains overlapEntries e 2 = false := by
  have h := overlap_get_hi (e - 2) (by omega)
  rw [show 2 + (e - 2) = e from by omega] at h
  unfold dirContains dirAt
  rw [h]
  rfl

theorem overlap_hierarchyOK : hierarchyOK overlapEntries = true := by
  rw [hierarchyOK, overlap_len, overlapEntries, List.all_cons, List.all_cons,
    all_replicate_of _ _ _ (by rfl)]
  decide

theorem overlap_dirCount : dirCount overlapEntries = 2 := by
  rw [dirCount, overlapEntries, List.filter_cons, List.filter_cons,
    filter_replicate_false _ _ _ (by rfl)]
  rfl

theorem overlap_subdir_nil :
    subdirIndices overlapEntries ⟨0, 2, 0x7FFFFF00⟩ = [] := by
  rw [subdirIndices]
  refine List.filter_eq_nil_iff.mpr ?h
  intro j hj
  rw [List.mem_map] at hj
  obtain ⟨k, hk, rfl⟩ := hj
  rw [List.mem_range] at hk
  show ¬ isDirAt overlapEntries (2 + k) = true
  rw [overlap_isDirAt_hi k hk]
  simp

theorem overlap_updatePaths : updatePathsOK overlapEntries (some 0) = true := by
  unfold updatePathsOK
  show walkOK overlapEntries (dirCount overlapEntries + 1) 0 = true
  rw [overlap_dirCount, walkOK_succ]
  rw [show dirAt overlapEntries 0 = some ⟨0, 2, 0x7FFFFF00⟩ from rfl]
  rw [show (match some (⟨0, 2, 0x7FFFFF00⟩ : RpfDirectoryEntry) with
      | some dr => (subdirIndices overlapEntries dr).all (walkOK overlapEntries 2)
      | none => true) =
      (subdirIndices overlapEntries ⟨0, 2, 0x7FFFFF00⟩).all (walkOK overlapEntries 2)
      from rfl]
  rw [overlap_subdir_nil]
  rfl

theorem overlap_findRpf : findRpfIndices overlapEntries 3 0 = [] := by
  rw [show (3 : Nat) = 2 + 1 from rfl, findRpfIndices_succ]
  rw [show dirAt overlapEntries 0 = some ⟨0, 2, 0x7FFFFF00⟩ from rfl]
  show (fileIndices overlapEntries ⟨0, 2, 0x7FFFFF00⟩).filter
      (fun j => endsWithDotRpf (nameLowerAt overlapEntries j)) ++
    (subdirIndices overlapEntries ⟨0, 2, 0x7FFFFF00⟩).flatMap
      (findRpfIndices overlapEntries 2) = []
  rw [overlap_subdir_nil,
    show (([] : List Nat).flatMap (findRpfIndices overlapEntries 2)) = [] from rfl,
    List.append_nil]
  refine List.filter_eq_nil_iff.mpr ?h
  intro j hj
  rw [fileIndices, List.mem_filter] at hj
  obtain ⟨hmem, _⟩ := hj
  rw [List.mem_map] at hmem
  obtain ⟨k, hk, rfl⟩ := hmem
  rw [List.mem_range] at hk
  show ¬ endsWithDotRpf (nameLowerAt overlapEntries (2 + k)) = true
  rw [overlap_nameLower_hi k hk]
  decide

theorem overlap_nested (oc : Nat → List Nat → Except RpfError RpfArchive) :
    scanNestedWith oc overlapEntries (some 0) = [] := by
  unfold scanNestedWith
  show List.filterMap _
      (findRpfIndices overlapEntries (dirCount overlapEntries + 1) 0) = []
  rw [overlap_dirCount, show (2 + 1 : Nat) = 3 from rfl, overlap_findRpf]
  rfl

theorem scanOpen_plain (file : List Nat)
    (oc : Nat → List Nat → Except RpfError RpfArchive) (startPos : Nat)
    (fileName : List Nat) (entryCount namesLength : Nat)
    (entries : List ParsedEntry)
    (hv : getUint32 (readSyncFill file startPos 16) 0 = 0x52504637)
    (hc : getUint32 (readSyncFill file startPos 16) 4 = entryCount)
    (hn : getUint32 (readSyncFill file startPos 16) 8 = namesLength)
    (he : getUint32 (readSyncFill file startPos 16) 12 = 0)
    (hp : parseEntries (readSyncFill file (startPos + 16) (entryCount * 16))
        (readSyncFill file (startPos + 16 + entryCount * 16) namesLength)
        entryCount = .ok entries)
    (hh : hierarchyOK entries = true)
    (hr : isDirAt entries 0 = true)
    (hu : updatePathsOK entries (some 0) = true) :
    scanOpen file oc startPos fileName =
      .ok (.mk startPos fileName 0x52504637 entryCount namesLength 0 entries
            (some 0) (scanNestedWith oc entries (some 0))) := by
  rw [scanOpen, hv, hc, hn, he, if_neg (not_not_intro rfl)]
  show (match parseEntries (readSyncFill file (startPos + 16) (entryCount * 16))
        (readSyncFill file (startPos + 16 + entryCount * 16) namesLength)
        entryCount with
      | Except.error e => Except.error e
      | Except.ok es =>
        if hierarchyOK es = true then
          if updatePathsOK es
              (if isDirAt es 0 = true then some 0 else none) = true then
            Except.ok (RpfArchive.mk startPos fileName 0x52504637 entryCount
              namesLength 0 es
              (if isDirAt es 0 = true then some 0 else none)
              (scanNestedWith oc es
                (if isDirAt es 0 = true then some 0 else none)))
          else Except.error RpfError.pathWalkDiverges
        else Except.error RpfError.hierarchyOutOfRange) =
      Except.ok (RpfArchive.mk startPos fileName 0x52504637 entryCount
        namesLength 0 entries (some 0) (scanNestedWith oc entries (some 0)))
  rw [hp]
  show (if hierarchyOK entries = true then
      if updatePathsOK entries
          (if isDirAt entries 0 = true then some 0 else none) = true then
        Except.ok (RpfArchive.mk startPos fileName 0x52504637 entryCount
          namesLength 0 entries
          (if isDirAt entries 0 = true then some 0 else none)
          (scanNestedWith oc entries
            (if isDirAt entries 0 = true then some 0 else none)))
      else Except.error RpfError.pathWalkDiverges
    else Except.error RpfError.hierarchyOutOfRange) =
      Except.ok (RpfArchive.mk startPos fileName 0x52504637 entryCount
        namesLength 0 entries (some 0) (scanNestedWith oc entries (some 0)))
  rw [if_pos hh, hr, if_pos rfl, if_pos hu]

theorem overlap_scan : scanStructure overlapFile 1 0 [] = .ok overlapArch := by
  have hp : parseEntries (readSyncFill overlapFile (0 + 16) (2147483394 * 16))
      (readSyncFill overlapFile (0 + 16 + 2147483394 * 16) 1) 2147483394 =
      .ok overlapEntries := by
    rw [show (0 + 16 : Nat) = 16 from rfl,
      show (2147483394 * 16 : Nat) = 34359734304 from by norm_num,
      show (16 + 34359734304 : Nat) = 34359734320 from by norm_num,
      show readSyncFill overlapFile 34359734320 1 = [0] from rfl]
    exact overlap_parse
  show scanStructure overlapFile (0+1) 0 [] = .ok overlapArch
  rw [scanStructure_succ]
  rw [scanOpen_plain overlapFile _ 0 [] 2147483394 1 overlapEntries rfl rfl rfl rfl
    hp overlap_hierarchyOK rfl overlap_updatePaths]
  rw [overlap_nested]
  rfl

/-- C2 counterexample: a successfully opened 48-byte archive whose two
distinct directory entries (indices 0 and 1) carry the identical child
range `[2, 2 + 0x7FFFFF00)` — the ranges overlap completely — and entry 2,
which lies in directory 0's range, gets parent index 1 (the last directory
whose range contains it wins), so not every entry in a directory's range
has that directory as its parent.  The inner-bound part of the claim does
hold and is the amended statement. -/
theorem c2_overlap_counterexample :
    scanStructure overlapFile 1 0 [] = .ok overlapArch ∧
    overlapArch.entries.length = 2147483394 ∧
    isDirAt overlapArch.entries 0 = true ∧
    isDirAt overlapArch.entries 1 = true ∧
    dirAt overlapArch.entries 0 = some ⟨0, 2, 0x7FFFFF00⟩ ∧
    dirAt overlapArch.entries 1 = some ⟨0, 2, 0x7FFFFF00⟩ ∧
    dirContains overlapArch.entries 0 2 = true ∧
    dirContains overlapArch.entries 1 2 = true ∧
    parentIndex overlapArch.entries 2 = some 1 := by
  refine ⟨overlap_scan, overlap_len, rfl, rfl, rfl, rfl, rfl, rfl, ?p⟩
  show parentIndex overlapEntries 2 = some 1
  refine parentIndex_last overlapEntries 2 1 ?hd ?hdc ?hlast
  case hd => rw [overlap_len]; norm_num
  case hdc => rfl
  case hlast =>
    intro e he1 he2
    rw [overlap_len] at he2
    exact overlap_dirContains_hi e (by omega) he2

theorem nestedUnder_children_pos {base : List Nat} {a : RpfArchive} {p : List Nat}
    {c : RpfArchive} (h : NestedUnder base a p c) : 0 < a.children.length := by
  cases h with
  | child hm => exact List.length_pos.mpr (List.ne_nil_of_mem hm)
  | descend hm _ => exact List.length_pos.mpr (List.ne_nil_of_mem hm)

theorem sizeOf_children_lt (arch : RpfArchive) : sizeOf arch.children < sizeOf arch := by
  cases arch
  simp [RpfArchive.children]

theorem addNestedRpfs_mem_iff :
    ∀ (n : Nat) (arch : RpfArchive), sizeOf arch < n → ∀ (base p : List Nat) (c : RpfArchive),
      ((p, c) ∈ addNestedRpfs base arch ↔ NestedUnder base arch p c) := by
  intro n
  induction n with
  | zero => intro arch h; exact absurd h (Nat.not_lt_zero _)
  | succ n ih =>
    intro arch hsz base p c
    rw [addNestedRpfs, List.mem_flatMap]
    constructor
    · rintro ⟨⟨c1, hc1⟩, _hmem, hin⟩
      rcases List.mem_cons.mp hin with heq | htail
      · simp only [Prod.mk.injEq] at heq
        obtain ⟨hp, hc⟩ := heq
        subst hp
        subst hc
        exact NestedUnder.child hc1
      · by_cases hlen : c1.children.length > 0
        · rw [if_pos hlen] at htail
          have hlt : sizeOf c1 < n := by
            have h1 : sizeOf c1 < sizeOf arch.children := List.sizeOf_lt_of_mem hc1
            have h2 := sizeOf_children_lt arch
            omega
          exact NestedUnder.descend hc1 ((ih c1 hlt _ p c).mp htail)
        · rw [if_neg hlen] at htail
          cases htail
    · intro hn
      cases hn with
      | child hm =>
        exact ⟨⟨c, hm⟩, List.mem_attach _ _, List.mem_cons_self _ _⟩
      | @descend _ _ c1 _ _ hm hrec =>
        refine ⟨⟨c1, hm⟩, List.mem_attach _ _, List.mem_cons.mpr (Or.inr ?_)⟩
        rw [if_pos (nestedUnder_children_pos hrec)]
        have hlt : sizeOf c1 < n := by
          have h1 : sizeOf c1 < sizeOf arch.children := List.sizeOf_lt_of_mem hm
          have h2 := sizeOf_children_lt arch
          omega
        exact (ih c1 hlt _ p c).mpr hrec

theorem mem_scanNestedWith (oc : Nat → List Nat → Except RpfError RpfArchive)
    (entries : List ParsedEntry) (r : Nat) (c : RpfArchive) :
    c ∈ scanNestedWith oc entries (some r) ↔
      ∃ j, j ∈ findRpfIndices entries (dirCount entries + 1) r ∧
        ∃ e b, entries.get? j = some e ∧ e.kind = RpfEntryKind.bin b ∧
          oc (b.fileOffset * 512) e.name = .ok c := by
  show c ∈ (findRpfIndices entries (dirCount entries + 1) r).filterMap _ ↔ _
  rw [List.mem_filterMap]
  constructor
  · rintro ⟨j, hj, hf⟩
    refine ⟨j, hj, ?v⟩
    rcases hg : entries.get? j with _ | e <;> rw [hg] at hf
    · simp at hf
    · replace hf : (match e.kind with
          | RpfEntryKind.bin b => (oc (b.fileOffset * 512) e.name).toOption
          | _ => none) = some c := hf
      rcases hk : e.kind with d | b | rg <;> rw [hk] at hf
      · simp at hf
      · replace hf : (oc (b.fileOffset * 512) e.name).toOption = some c := hf
        rcases ho : oc (b.fileOffset * 512) e.name with err | a <;> rw [ho] at hf
        · simp [Except.toOption] at hf
        · simp [Except.toOption] at hf
          exact ⟨e, b, rfl, hk, by rw [ho, hf]⟩
      · simp at hf
  · rintro ⟨j, hj, e, b, hg, hk, ho⟩
    refine ⟨j, hj, ?w⟩
    rw [show entries.get? j = entries[j]? from List.get?_eq_getElem? entries j] at hg
    simp [hg, hk, ho, Except.toOption]

/-- C6 amended: (1) on every successful open the archive's children are
exactly the results of the nested scan over its entry array from its root
index; (2) the nested scan opens a child `c` iff some index found by the
`.rpf` tree walk holds a *binary* file entry (resource entries are
skipped) whose nested open at `fileOffset * 512` — the parent's own
`startPos` is not added — succeeds with `c`; (3) the registry registers
exactly the pairs `(basePath ++ "/" ++ ... chain of child fileNames, descendant)`
described by `NestedUnder`. -/
theorem c6_nested_scan_amended :
    (∀ (file : List Nat) (fuel startPos : Nat) (fileName : List Nat) (arch : RpfArchive),
      scanStructure file (fuel+1) startPos fileName = .ok arch →
      arch.children = scanNestedWith (fun s n => scanStructure file fuel s n)
        arch.entries arch.rootIdx) ∧
    (∀ (oc : Nat → List Nat → Except RpfError RpfArchive)
        (entries : List ParsedEntry) (r : Nat) (c : RpfArchive),
      c ∈ scanNestedWith oc entries (some r) ↔
        ∃ j, j ∈ findRpfIndices entries (dirCount entries + 1) r ∧
          ∃ e b, entries.get? j = some e ∧ e.kind = RpfEntryKind.bin b ∧
            oc (b.fileOffset * 512) e.name = .ok c) ∧
    (∀ (base p : List Nat) (arch c : RpfArchive),
      ((p, c) ∈ addNestedRpfs base arch ↔ NestedUnder base arch p c)) :=
  ⟨fun file fuel startPos fileName arch h => by
      rw [scanStructure_succ] at h
      exact (scanOpen_ok_inversion _ _ _ _ _ h).2.2.2.2.2.2.2.2,
   mem_scanNestedWith,
   fun base p arch c =>
     addNestedRpfs_mem_iff (sizeOf arch + 1) arch (Nat.lt_succ_self _) base p c⟩

/-- C6 amended, witness: the empty archive's (empty) children list is the
nested scan of its entries. -/
theorem c6_nested_scan_amended_witness :
    emptyArch.children = scanNestedWith (fun s n => scanStructure emptyFile 0 s n)
      emptyArch.entries emptyArch.rootIdx :=
  c6_nested_scan_amended.1 emptyFile 0 0 [] emptyArch rfl

/-- C6 counterexample: in a hierarchy whose root holds a resource `.rpf`
entry (index 1) and a binary `.rpf` entry (index 2, payload block 2), the
tree walk finds both, but the nested scan opens only the binary one, and
it opens it at `fileOffset * 512 = 1024`; opening at the claimed
`start_offset + fileOffset * 512` for a parent at `start_offset = 512`
(byte 1536) fails, as the backing file holds no archive there. -/
theorem c6_nested_scan_counterexample :
    findRpfIndices c6Entries (dirCount c6Entries + 1) 0 = [1, 2] ∧
    endsWithDotRpf (nameLowerAt c6Entries 1) = true ∧
    isFileAt c6Entries 1 = true ∧
    scanNestedWith (fun s n => scanStructure c6File 1 s n) c6Entries (some 0) =
      [c6Child] ∧
    c6Child.startPos = 1024 ∧
    scanStructure c6File 1 (512 + 2 * 512) [] = .error (.invalidVersion 0) :=
  ⟨rfl, rfl, rfl, rfl, rfl, rfl⟩
